import Mathlib

/-!
Verification of the LiDAR-Visualization fusion pipeline.

This file gives a shallow embedding, in Lean 4, of the core data path of the
repository: the chunked-scan assembler (`DataAssembler.cpp`), the quadtree
elevation map (`QuadtreeMap`), and the lidar datagram acceptance test of
`NetworkManager::lidarReceiveThread`.  Floating point values of the source are
modelled as exact rationals; machine integers as `Nat`; the C++ containers
(`std::unordered_map`, `std::map`, `std::vector`) as association lists and
lists.  The internal monotonic clock (`nowSeconds()`) is passed explicitly as
an argument wherever the source reads it.

Theorems at the end settle the specification claims against this embedding.
-/

set_option maxRecDepth 10000

/-! ## Data model (NetworkTypes.h) -/

/-- A lidar point: three coordinates, modelled as exact rationals. -/
structure LidarPoint where
  x : ℚ
  y : ℚ
  z : ℚ
deriving DecidableEq, Repr

/-- Header of a lidar chunk packet (`LidarPacketHeader`). -/
structure LidarPacketHeader where
  timestamp : ℚ
  chunkIndex : ℕ
  totalChunks : ℕ
  pointsInThisChunk : ℕ
deriving DecidableEq, Repr

/-- A fully reassembled scan (`CompletedScan`). -/
structure CompletedScan where
  roverId : String
  timestamp : ℚ
  points : List LidarPoint
deriving DecidableEq, Repr

/-! ## DataAssembler (src/DataAssembler.hpp / .cpp) -/

/-- Key of the partial-scan table: (rover id, scan timestamp). -/
abbrev PartialKey := String × ℚ

/-- `DataAssembler::PartialScan`. -/
structure PartialScan where
  firstArrivalTs : ℚ
  totalChunks : ℕ
  received : List Bool
  points : List LidarPoint
deriving DecidableEq, Repr

/-- The default-constructed `PartialScan` (what `partials[key]` inserts). -/
def PartialScan.default : PartialScan :=
  { firstArrivalTs := 0, totalChunks := 0, received := [], points := [] }

/-- State of a `DataAssembler`. -/
structure DataAssembler where
  partials : List (PartialKey × PartialScan)
  completed : List CompletedScan
  globalTerrain : List LidarPoint
  maxPointsGlobal : ℕ
  storeGlobalPoints : Bool
deriving DecidableEq, Repr

/-- The freshly constructed assembler. -/
def DataAssembler.init : DataAssembler :=
  { partials := [], completed := [], globalTerrain := [],
    maxPointsGlobal := 2000000, storeGlobalPoints := false }

/-- Lookup in an association list (the `unordered_map` find). -/
def findP (k : PartialKey) : List (PartialKey × PartialScan) → Option PartialScan
  | [] => none
  | (k', v) :: rest => if k' = k then some v else findP k rest

/-- Store under a key: replace the existing entry, or append a new one. -/
def setP (k : PartialKey) (v : PartialScan) :
    List (PartialKey × PartialScan) → List (PartialKey × PartialScan)
  | [] => [(k, v)]
  | (k', v') :: rest => if k' = k then (k, v) :: rest else (k', v') :: setP k v rest

/-- Erase a key (`partials.erase(key)`). -/
def eraseP (k : PartialKey) (l : List (PartialKey × PartialScan)) :
    List (PartialKey × PartialScan) :=
  l.filter (fun kv => decide (kv.1 ≠ k))

/-- `DataAssembler::addChunk`.  `internalNow` is the value the source's static
`nowSeconds()` clock returns during this call. -/
def DataAssembler.addChunk (st : DataAssembler) (internalNow : ℚ)
    (roverId : String) (hdr : LidarPacketHeader) (pts : List LidarPoint) :
    DataAssembler :=
  let key : PartialKey := (roverId, hdr.timestamp)
  let p0 := (findP key st.partials).getD PartialScan.default
  let p1 := if p0.received.isEmpty then
      { p0 with firstArrivalTs := internalNow,
                totalChunks := hdr.totalChunks,
                received := List.replicate hdr.totalChunks false }
    else p0
  let p2 := if hdr.chunkIndex < p1.received.length
               ∧ p1.received.getD hdr.chunkIndex true = false then
      { p1 with received := p1.received.set hdr.chunkIndex true,
                points := p1.points ++ pts }
    else p1
  if p2.received.all (fun b => b) then
    { st with partials := eraseP key st.partials,
              completed := st.completed ++
                [{ roverId := roverId, timestamp := hdr.timestamp, points := p2.points }] }
  else
    { st with partials := setP key p2 st.partials }

/-- `DataAssembler::retrieveCompleted`: move the completed scans out. -/
def DataAssembler.retrieveCompleted (st : DataAssembler) :
    List CompletedScan × DataAssembler :=
  (st.completed, { st with completed := [] })

/-- `DataAssembler::maintenance`.  The source ignores its `nowSec` parameter
(the formal parameter is commented out) and queries the internal static clock;
`internalNow` is the value that clock returns during this call. -/
def DataAssembler.maintenance (st : DataAssembler) (nowSecArg : ℚ)
    (internalNow : ℚ) : DataAssembler :=
  let _ := nowSecArg
  let kept := st.partials.filter
    (fun kv => decide (¬ internalNow - kv.2.firstArrivalTs > 0.2))
  let gt :=
    if st.storeGlobalPoints then
      let gt' := st.globalTerrain ++ (st.completed.map CompletedScan.points).flatten
      if 0 < st.maxPointsGlobal ∧ st.maxPointsGlobal < gt'.length then
        gt'.drop (gt'.length - st.maxPointsGlobal)
      else gt'
    else st.globalTerrain
  { st with partials := kept, globalTerrain := gt }

/-! ## Chunk delivery scenarios -/

/-- One chunk of a scan as delivered to `addChunk`: its index and its points. -/
structure Chunk where
  idx : ℕ
  pts : List LidarPoint
deriving DecidableEq, Repr

/-- Deliver a list of chunks of a single (rover, timestamp) scan, all bearing
the same `totalChunks = T`, in list order. -/
def deliver (roverId : String) (ts : ℚ) (T : ℕ) (internalNow : ℚ)
    (st : DataAssembler) (cs : List Chunk) : DataAssembler :=
  cs.foldl (fun s c =>
    s.addChunk internalNow roverId
      { timestamp := ts, chunkIndex := c.idx, totalChunks := T,
        pointsInThisChunk := c.pts.length } c.pts) st

/-- The completed scans carrying a given key, in emission order. -/
def scansFor (key : PartialKey) (l : List CompletedScan) : List CompletedScan :=
  l.filter (fun s => decide (s.roverId = key.1) && decide (s.timestamp = key.2))

/-- The received-bitset of a partial whose delivered chunk indices are `l`:
bit `i` is set iff `i ∈ l`. -/
def mask (T : ℕ) (l : List ℕ) : List Bool :=
  (List.range T).map (fun i => decide (i ∈ l))

/-! ## Quadtree elevation map (QuadtreeMap.hpp / QuadtreeMap.cpp) -/

/-- Flag bits of an `ElevCell` (enum `ElevFlags`). -/
def ELEV_STABLE : ℕ := 1

def ELEV_CHANGED : ℕ := 2

def ELEV_DIRTY : ℕ := 4

def ELEV_VALID : ℕ := 8

/-- Per-leaf elevation statistics (`ElevCell`). -/
structure ElevCell where
  z_mean : ℚ
  z_var : ℚ
  n : ℕ
  disagreeHits : ℕ
  age : ℕ
  flags : ℕ
  prev_z_mean : ℚ
  lastDisagreeTs : ℚ
  valid : Bool
deriving DecidableEq, Repr

/-- The default-constructed cell (all C++ member initializers). -/
def ElevCell.initCell : ElevCell :=
  { z_mean := 0, z_var := 0, n := 0, disagreeHits := 0, age := 0, flags := 0,
    prev_z_mean := 0, lastDisagreeTs := 0, valid := false }

/-- `QuadNode`: the C++ node holds `isLeaf`, a cell, and four owning child
pointers; after a split the parent keeps its (stale) cell, which we keep in
the `inner` constructor.  Child order: SW, SE, NW, NE. -/
inductive QuadNode where
  | leaf (cell : ElevCell)
  | inner (cell : ElevCell) (sw se nw ne : QuadNode)
deriving DecidableEq, Repr

def QuadNode.cell : QuadNode → ElevCell
  | .leaf c => c
  | .inner c _ _ _ _ => c

def QuadNode.isLeafB : QuadNode → Bool
  | .leaf _ => true
  | .inner _ _ _ _ _ => false

def QuadNode.child : QuadNode → ℕ → QuadNode
  | .leaf c, _ => .leaf c
  | .inner _ a b c d, i =>
    if i = 0 then a else if i = 1 then b else if i = 2 then c else d

def QuadNode.setChild : QuadNode → ℕ → QuadNode → QuadNode
  | .leaf c, _, _ => .leaf c
  | .inner c a b d e, i, x =>
    if i = 0 then .inner c x b d e
    else if i = 1 then .inner c a x d e
    else if i = 2 then .inner c a b x e
    else .inner c a b d x

def QuadNode.setCell : QuadNode → ElevCell → QuadNode
  | .leaf _, c => .leaf c
  | .inner _ a b d e, c => .inner c a b d e

/-- Splitting a leaf: `isLeaf = false` and four children initialized from the
parent cell "for continuity" (`Tile::locateLeaf`). -/
def QuadNode.split : QuadNode → QuadNode
  | .leaf c => .inner c (.leaf c) (.leaf c) (.leaf c) (.leaf c)
  | n => n

/-- `childIndexFor`: SW(0) x<cx,z<cz; SE(1) x≥cx,z<cz; NW(2) x<cx,z≥cz;
NE(3) x≥cx,z≥cz. -/
def childIndexFor (x z cx cz : ℚ) : ℕ :=
  let xi : ℕ := if x ≥ cx then 1 else 0
  let zi : ℕ := if z ≥ cz then 1 else 0
  if xi = 0 ∧ zi = 0 then 0
  else if xi = 1 ∧ zi = 0 then 1
  else if xi = 0 ∧ zi = 1 then 2
  else 3

/-- The descent loop of `Tile::locateLeaf`.  `fuel = maxDepth - depth` counts
the remaining loop iterations; the source's `depth == maxDepth - 1` test is
`fuel = 1`, i.e. `f = 0` after pattern matching `fuel = f + 1`.  Returns the
(possibly split) subtree, the path of child indices taken, and the depth at
which the walk stopped. -/
def locateGo (x z : ℚ) : QuadNode → ℚ → ℚ → ℚ → ℕ → ℕ → QuadNode × List ℕ × ℕ
  | node, _, _, _, depth, 0 => (node, [], depth)
  | node, cx, cz, half, depth, f + 1 =>
    if node.isLeafB ∧ f = 0 then (node, [], depth)
    else
      let node2 := if node.isLeafB then node.split else node
      let idx := childIndexFor x z cx cz
      let half2 := half / 2
      let cx2 := cx + (if idx = 1 ∨ idx = 3 then half2 else -half2)
      let cz2 := cz + (if idx ≥ 2 then half2 else -half2)
      let r := locateGo x z (node2.child idx) cx2 cz2 half2 (depth + 1) f
      (node2.setChild idx r.1, idx :: r.2.1, r.2.2)

/-- A map tile (`Tile`). -/
structure Tile where
  originX : ℚ
  originZ : ℚ
  size : ℚ
  maxDepth : ℕ
  dirty : Bool
  root : QuadNode
deriving DecidableEq, Repr

/-- The `Tile(ox, oz, s, depth)` constructor (root allocated). -/
def Tile.create (ox oz s : ℚ) (depth : ℕ) : Tile :=
  { originX := ox, originZ := oz, size := s, maxDepth := depth, dirty := false,
    root := .leaf ElevCell.initCell }

/-- `Tile::locateLeaf`: walk from the root at the tile center. -/
def Tile.locateLeaf (t : Tile) (x z : ℚ) : QuadNode × List ℕ × ℕ :=
  locateGo x z t.root (t.originX + t.size / 2) (t.originZ + t.size / 2)
    (t.size / 2) 0 t.maxDepth

/-- Read the cell at a path of child indices. -/
def cellAtPath : QuadNode → List ℕ → ElevCell
  | n, [] => n.cell
  | n, i :: p => cellAtPath (n.child i) p

/-- Write the cell at a path of child indices (the in-place write through the
leaf pointer returned by `locateLeaf`). -/
def setCellAtPath : QuadNode → List ℕ → ElevCell → QuadNode
  | n, [], c => n.setCell c
  | n, i :: p, c => n.setChild i (setCellAtPath (n.child i) p c)

/-- The cell-update body of `Tile::integratePoint` (everything after the leaf
lookup).  Returns the updated cell and whether the tile dirty flag was set
during this call. -/
def integrateCellPoint (c : ElevCell) (y : ℚ) (nowTs : ℚ)
    (tauAccept tauReplace : ℚ) (K Nsat Nconf : ℕ) (tauUpload : ℚ) :
    ElevCell × Bool :=
  if c.valid = false then
    ({ c with z_mean := y, prev_z_mean := y, z_var := 0, n := 1,
              disagreeHits := 0,
              flags := c.flags ||| (ELEV_VALID ||| ELEV_DIRTY ||| ELEV_CHANGED),
              valid := true }, true)
  else
    let dz := |y - c.z_mean|
    if dz ≤ tauAccept then
      let nprime := min (c.n + 1) Nsat
      let delta := y - c.z_mean
      let c1 := { c with z_mean := c.z_mean + delta / (max nprime 1 : ℕ),
                         z_var := 0.9 * c.z_var + 0.1 * (delta * delta),
                         n := nprime, disagreeHits := 0 }
      if |c1.z_mean - c1.prev_z_mean| > tauUpload then
        ({ c1 with prev_z_mean := c1.z_mean, flags := c1.flags ||| ELEV_DIRTY },
         true)
      else (c1, false)
    else if dz ≥ tauReplace then
      let hits := if nowTs - c.lastDisagreeTs ≤ 1 then
          (if c.disagreeHits < 255 then c.disagreeHits + 1 else c.disagreeHits)
        else 1
      let c1 := { c with disagreeHits := hits, lastDisagreeTs := nowTs }
      if c1.n < Nconf ∨ K ≤ c1.disagreeHits then
        ({ c1 with z_mean := y, prev_z_mean := y, z_var := 0, n := 1,
                   disagreeHits := 0,
                   flags := c1.flags |||
                     (ELEV_CHANGED ||| ELEV_DIRTY ||| ELEV_VALID),
                   valid := true }, true)
      else (c1, false)
    else
      let c1 := { c with z_mean := c.z_mean + 0.1 * (y - c.z_mean) }
      let r := if |c1.z_mean - c1.prev_z_mean| > tauUpload then
          ({ c1 with prev_z_mean := c1.z_mean,
                     flags := c1.flags ||| ELEV_DIRTY }, true)
        else (c1, false)
      if nowTs - c.lastDisagreeTs > 1 then ({ r.1 with disagreeHits := 0 }, r.2)
      else r

/-- `Tile::integratePoint`: locate (and refine) the leaf under (p.x, p.z),
update its cell, and accumulate the tile dirty flag. -/
def Tile.integratePoint (t : Tile) (p : LidarPoint) (nowTs : ℚ)
    (tauAccept tauReplace : ℚ) (K Nsat Nconf : ℕ) (tauUpload : ℚ) : Tile :=
  let l := t.locateLeaf p.x p.z
  let c := cellAtPath l.1 l.2.1
  let r := integrateCellPoint c p.y nowTs tauAccept tauReplace K Nsat Nconf
    tauUpload
  { t with root := setCellAtPath l.1 l.2.1 r.1, dirty := t.dirty || r.2 }

/-- `sampleLeafHeight`: leaf → its mean if valid else 0; internal → average
of its four (always present) children. -/
def sampleLeafHeight : QuadNode → ℚ
  | .leaf c => if c.valid then c.z_mean else 0
  | .inner _ a b c d =>
    (sampleLeafHeight a + sampleLeafHeight b + sampleLeafHeight c +
      sampleLeafHeight d) / 4

/-- The bounded descent of `Tile::buildHeightGrid`
(`depth < maxDepth - 1 && !node->isLeaf`). -/
def gridDescend (x z : ℚ) : QuadNode → ℚ → ℚ → ℚ → ℕ → QuadNode
  | n, _, _, _, 0 => n
  | .leaf c, _, _, _, _ + 1 => .leaf c
  | .inner c a b d e, cx, cz, half, f + 1 =>
    let idx := childIndexFor x z cx cz
    let half2 := half / 2
    let cx2 := cx + (if idx = 1 ∨ idx = 3 then half2 else -half2)
    let cz2 := cz + (if idx ≥ 2 then half2 else -half2)
    gridDescend x z ((QuadNode.inner c a b d e).child idx) cx2 cz2 half2 f

/-- `Tile::buildHeightGrid`: an N×N height grid, row-major with `j` (the z
index) outermost. -/
def Tile.buildHeightGrid (t : Tile) (gridNVertices : ℕ) : List ℚ :=
  let step := t.size / ((gridNVertices : ℚ) - 1)
  ((List.range gridNVertices).map (fun j =>
    (List.range gridNVertices).map (fun i =>
      let x := t.originX + i * step
      let z := t.originZ + j * step
      let node := gridDescend x z t.root (t.originX + t.size / 2)
        (t.originZ + t.size / 2) (t.size / 2) (t.maxDepth - 1)
      match node with
      | .leaf c => if c.valid then c.z_mean else 0
      | n => sampleLeafHeight n))).flatten

/-- `TileKey` with the source's ordering (`tx` then `tz`). -/
structure TileKey where
  tx : ℤ
  tz : ℤ
deriving DecidableEq, Repr

def TileKey.ltB (a b : TileKey) : Bool :=
  if a.tx ≠ b.tx then decide (a.tx < b.tx) else decide (a.tz < b.tz)

/-- Lookup in the (sorted) tile map. -/
def findTile (k : TileKey) : List (TileKey × Tile) → Option Tile
  | [] => none
  | (k', t) :: rest => if k' = k then some t else findTile k rest

/-- Insertion preserving the `std::map` key order. -/
def insertTileSorted (k : TileKey) (t : Tile) :
    List (TileKey × Tile) → List (TileKey × Tile)
  | [] => [(k, t)]
  | (k', t') :: rest =>
    if TileKey.ltB k k' then (k, t) :: (k', t') :: rest
    else (k', t') :: insertTileSorted k t rest

/-- Update the tile stored under a key in place. -/
def updateTile (k : TileKey) (f : Tile → Tile) (l : List (TileKey × Tile)) :
    List (TileKey × Tile) :=
  l.map (fun kv => if kv.1 = k then (kv.1, f kv.2) else kv)

/-- An exported dirty-tile update (`TileUpdate`). -/
structure TileUpdate where
  key : TileKey
  heights : List ℚ
  tileSize : ℚ
deriving DecidableEq, Repr

/-- `ElevationStats`. -/
structure ElevationStats where
  numTiles : ℕ
  numLeaves : ℕ
deriving DecidableEq, Repr

def QuadNode.countLeaves : QuadNode → ℕ
  | .leaf _ => 1
  | .inner _ a b c d =>
    a.countLeaves + b.countLeaves + c.countLeaves + d.countLeaves

/-- `ElevationMap` state. -/
structure ElevationMap where
  tileSize : ℚ
  baseCellRes : ℚ
  maxDepth : ℕ
  tauAccept : ℚ
  tauReplace : ℚ
  K : ℕ
  Nsat : ℕ
  Nconf : ℕ
  tauUpload : ℚ
  disagreeWindow : ℚ
  gridNVertices : ℕ
  tiles : List (TileKey × Tile)
deriving DecidableEq, Repr

/-- The `while (c < round(cellsPerTile) && power < 10)` loop of
`setParameters`; fuel 11 exceeds the 10 iterations the `power < 10` guard
permits, so the loop semantics are exact. -/
def powerLoop (target : ℤ) : ℕ → ℕ → ℕ → ℕ
  | 0, _, power => power
  | fuel + 1, c, power =>
    if (c : ℤ) < target ∧ power < 10 then powerLoop target fuel (2 * c) (power + 1)
    else power

/-- `ElevationMap::setParameters`. -/
def ElevationMap.setParameters (m : ElevationMap)
    (tileSizeMeters baseCellResolutionMeters tauAcceptMeters
      tauReplaceMeters : ℚ) (K_confirm Nsat_cap Nconf_low : ℕ)
    (tauUploadMeters deltaT_windowSeconds : ℚ) : ElevationMap :=
  let cellsPerTile := tileSizeMeters / baseCellResolutionMeters
  let power := powerLoop (round cellsPerTile) 11 1 0
  { m with tileSize := tileSizeMeters,
           baseCellRes := baseCellResolutionMeters,
           tauAccept := tauAcceptMeters,
           tauReplace := tauReplaceMeters,
           K := K_confirm, Nsat := Nsat_cap, Nconf := Nconf_low,
           tauUpload := tauUploadMeters,
           disagreeWindow := deltaT_windowSeconds,
           maxDepth := power,
           gridNVertices := 2 ^ power + 1 }

/-- The `ElevationMap()` constructor:
`setParameters(32.0, 0.25, 0.25, 0.7, 3, 20, 5, 0.06, 1.0)`. -/
def ElevationMap.init : ElevationMap :=
  ElevationMap.setParameters
    { tileSize := 32, baseCellRes := 0.25, maxDepth := 7, tauAccept := 0.25,
      tauReplace := 0.7, K := 3, Nsat := 20, Nconf := 5, tauUpload := 0.06,
      disagreeWindow := 1, gridNVertices := 129, tiles := [] }
    32 0.25 0.25 0.7 3 20 5 0.06 1

/-- `ElevationMap::getOrCreateTile` (as a state transformer). -/
def ElevationMap.getOrCreateTile (m : ElevationMap) (tx tz : ℤ) : ElevationMap :=
  match findTile { tx := tx, tz := tz } m.tiles with
  | some _ => m
  | none =>
    let t := Tile.create ((tx : ℚ) * m.tileSize) ((tz : ℚ) * m.tileSize)
      m.tileSize m.maxDepth
    { m with tiles := insertTileSorted { tx := tx, tz := tz } t m.tiles }

/-- The body of the `integrateScan` loop for one point: resolve the tile by
`floor(x / tileSize)`, `floor(z / tileSize)` and integrate.  There is no
finiteness test on the coordinates. -/
def ElevationMap.integrateOne (m : ElevationMap) (p : LidarPoint) (nowTs : ℚ) :
    ElevationMap :=
  let tx := ⌊p.x / m.tileSize⌋
  let tz := ⌊p.z / m.tileSize⌋
  let m2 := m.getOrCreateTile tx tz
  let f := fun t => t.integratePoint p nowTs m.tauAccept m.tauReplace m.K
    m.Nsat m.Nconf m.tauUpload
  { m2 with tiles := updateTile { tx := tx, tz := tz } f m2.tiles }

/-- `ElevationMap::integrateScan`: every point of the scan is integrated. -/
def ElevationMap.integrateScan (m : ElevationMap) (points : List LidarPoint)
    (nowTs : ℚ) : ElevationMap :=
  points.foldl (fun acc p => acc.integrateOne p nowTs) m

/-- `ElevationMap::consumeDirtyTiles` traversal. -/
def consumeDirtyGo (gridN : ℕ) (ts : ℚ) :
    List (TileKey × Tile) → List TileUpdate × List (TileKey × Tile)
  | [] => ([], [])
  | (k, t) :: rest =>
    let r := consumeDirtyGo gridN ts rest
    if t.dirty then
      ({ key := k, heights := t.buildHeightGrid gridN, tileSize := ts } :: r.1,
       (k, { t with dirty := false }) :: r.2)
    else (r.1, (k, t) :: r.2)

/-- `ElevationMap::consumeDirtyTiles`. -/
def ElevationMap.consumeDirtyTiles (m : ElevationMap) :
    List TileUpdate × ElevationMap :=
  let r := consumeDirtyGo m.gridNVertices m.tileSize m.tiles
  (r.1, { m with tiles := r.2 })

/-- The traversal of `ElevationMap::consumeDirtyTilesBudgeted`: the budget
check (`updates.size() >= budgetTiles`) runs before each element is
examined. -/
def consumeBudgetGo (gridN : ℕ) (ts : ℚ) :
    ℕ → List (TileKey × Tile) → List TileUpdate × List (TileKey × Tile)
  | _, [] => ([], [])
  | 0, (k, t) :: rest => ([], (k, t) :: rest)
  | budget + 1, (k, t) :: rest =>
    if t.dirty then
      let r := consumeBudgetGo gridN ts budget rest
      ({ key := k, heights := t.buildHeightGrid gridN, tileSize := ts } :: r.1,
       (k, { t with dirty := false }) :: r.2)
    else
      let r := consumeBudgetGo gridN ts (budget + 1) rest
      (r.1, (k, t) :: r.2)

/-- `ElevationMap::consumeDirtyTilesBudgeted`. -/
def ElevationMap.consumeDirtyTilesBudgeted (m : ElevationMap) (maxBytes : ℕ) :
    List TileUpdate × ElevationMap :=
  let perTile := m.gridNVertices * m.gridNVertices * 4
  if perTile = 0 then ([], m)
  else
    let budgetTiles := max (maxBytes / perTile) 1
    let r := consumeBudgetGo m.gridNVertices m.tileSize budgetTiles m.tiles
    (r.1, { m with tiles := r.2 })

/-- `ElevationMap::getStats`. -/
def ElevationMap.getStats (m : ElevationMap) : ElevationStats :=
  { numTiles := m.tiles.length,
    numLeaves := (m.tiles.map (fun kv => kv.2.root.countLeaves)).sum }

/-- Inspection helper: the dirty flag of the tile at (tx, tz). -/
def ElevationMap.tileDirty (m : ElevationMap) (tx tz : ℤ) : Option Bool :=
  (findTile { tx := tx, tz := tz } m.tiles).map Tile.dirty

/-- Inspection helper: the leaf cell governing world position (x, z). -/
def ElevationMap.cellAt (m : ElevationMap) (x z : ℚ) : Option ElevCell :=
  match findTile { tx := ⌊x / m.tileSize⌋, tz := ⌊z / m.tileSize⌋ } m.tiles with
  | none => none
  | some t => some (cellAtPath (t.locateLeaf x z).1 (t.locateLeaf x z).2.1)

/-! ## Lidar datagram acceptance (NetworkManager::lidarReceiveThread) -/

/-- `sizeof(WireLidarPacketHeader)` = 8 + 4 + 4 + 4 bytes, packed. -/
def WIRE_LIDAR_HEADER_SIZE : ℕ := 20

/-- `sizeof(WireLidarPoint)` = 3 × 4 bytes, packed. -/
def WIRE_LIDAR_POINT_SIZE : ℕ := 12

def MAX_LIDAR_POINTS_PER_PACKET : ℕ := 100

/-- The clamp `if (pointsCount > MAX_LIDAR_POINTS_PER_PACKET) pointsCount =
MAX_LIDAR_POINTS_PER_PACKET` applied to the declared header count. -/
def clampedPointsCount (declared : ℕ) : ℕ :=
  if declared > MAX_LIDAR_POINTS_PER_PACKET then MAX_LIDAR_POINTS_PER_PACKET
  else declared

/-- The acceptance test of `NetworkManager::lidarReceiveThread`: a datagram
of `bytesReceived` bytes whose parsed header declares `declared` points is
forwarded to `processLidarPacket` iff the header fits and the length equals
header size plus the clamped point count times the point size. -/
def lidarDatagramAccepted (bytesReceived declared : ℕ) : Bool :=
  if bytesReceived ≥ WIRE_LIDAR_HEADER_SIZE then
    decide (bytesReceived =
      WIRE_LIDAR_HEADER_SIZE + clampedPointsCount declared * WIRE_LIDAR_POINT_SIZE)
  else false

/-! ## Concrete scenario states used by witnesses and counterexamples -/

/-- A map with `setParameters(1, 1, 0.25, 0.7, 3, 20, 5, 0.06, 1.0)`:
one cell per tile (`maxDepth = 0`), reachable through the public API. -/
def mSmall : ElevationMap := ElevationMap.init.setParameters 1 1 0.25 0.7 3 20 5 0.06 1

/-- `mSmall`, written out. -/
def mSmallG : ElevationMap :=
  { tileSize := 1, baseCellRes := 1, maxDepth := 0, tauAccept := 0.25,
    tauReplace := 0.7, K := 3, Nsat := 20, Nconf := 5, tauUpload := 0.06,
    disagreeWindow := 1, gridNVertices := 2, tiles := [] }

def kTile00 : TileKey := { tx := 0, tz := 0 }

def pC3a : LidarPoint := { x := 0.1, y := 0, z := 0.1 }

def pC3b : LidarPoint := { x := 0.1, y := -0.5, z := 0.1 }

def pC3c : LidarPoint := { x := 0.1, y := 0.15, z := 0.1 }

def cellC3a : ElevCell :=
  { z_mean := 0, z_var := 0, n := 1, disagreeHits := 0, age := 0, flags := 14,
    prev_z_mean := 0, lastDisagreeTs := 0, valid := true }

def tileC3a : Tile :=
  { originX := 0, originZ := 0, size := 1, maxDepth := 0, dirty := true,
    root := .leaf cellC3a }

def cellC3c : ElevCell := { cellC3a with z_mean := -(1/20) }

def cellC3d : ElevCell :=
  { cellC3a with z_mean := 1/20, z_var := 1/250, n := 2 }

/-- State after initializing the cell at (0.1, 0.1) with y = 0. -/
def mC3a : ElevationMap := mSmall.integrateScan [pC3a] 0

/-- ... after the renderer consumed the dirty tile (dirty flag cleared). -/
def mC3b : ElevationMap := (mC3a.consumeDirtyTiles).2

/-- ... after a gray-zone point y = −0.5 (z_mean drifts to −1/20, no dirty). -/
def mC3c : ElevationMap := mC3b.integrateScan [pC3b] 0

/-- ... after an agree point y = 0.15 (z_mean moves to 1/20, a change of
1/10 > τ_upload, yet no dirty). -/
def mC3d : ElevationMap := mC3c.integrateScan [pC3c] 0

/-- A cell at saturation with a stable mean, as produced by a run of
agreeing samples: `n = N_sat`, `disagreeHits = 0`. -/
def cellC2 : ElevCell :=
  { z_mean := 0, z_var := 0, n := 20, disagreeHits := 0, age := 0, flags := 9,
    prev_z_mean := 0, lastDisagreeTs := 0, valid := true }

def pC5a : LidarPoint := { x := 0.1, y := 5, z := 0.1 }

def pC5b : LidarPoint := { x := 1.5, y := 3, z := 0.2 }

/-- Two-point scan integrated on the small map: both points land in cells. -/
def mC5 : ElevationMap := mSmall.integrateScan [pC5a, pC5b] 0

def cellC5a : ElevCell := { cellC3a with z_mean := 5, prev_z_mean := 5 }

def cellC5b : ElevCell := { cellC3a with z_mean := 3, prev_z_mean := 3 }

def kTile10 : TileKey := { tx := 1, tz := 0 }

def tileC5a : Tile :=
  { originX := 0, originZ := 0, size := 1, maxDepth := 0, dirty := true,
    root := .leaf cellC5a }

def tileC5b : Tile :=
  { originX := 1, originZ := 0, size := 1, maxDepth := 0, dirty := true,
    root := .leaf cellC5b }

/-- A dirty one-cell tile for budgeted-export scenarios. -/
def tileC6 : Tile :=
  { originX := 0, originZ := 0, size := 1, maxDepth := 0, dirty := true,
    root := .leaf cellC3a }

/-- A small map with two dirty tiles (`gridNVertices = 2`, 16 bytes/tile). -/
def mC6 : ElevationMap :=
  { mSmallG with tiles := [({ tx := 0, tz := 0 }, tileC6),
                           ({ tx := 1, tz := 0 }, tileC6)] }

def chunkW1 : Chunk := { idx := 1, pts := [{ x := 1, y := 2, z := 3 }] }

def chunkW0 : Chunk :=
  { idx := 0, pts := [{ x := 4, y := 5, z := 6 }, { x := 7, y := 8, z := 9 }] }

/-- An aged partial scan (first chunk arrived at internal time 0). -/
def partialC8 : PartialScan :=
  { firstArrivalTs := 0, totalChunks := 2, received := [true, false],
    points := [] }

def stC8 : DataAssembler :=
  { DataAssembler.init with partials := [(("rover1", 1), partialC8)] }

def hdrC9a : LidarPacketHeader :=
  { timestamp := 1, chunkIndex := 0, totalChunks := 3, pointsInThisChunk := 0 }

/-- A header for the same key whose `totalChunks` (5) conflicts with the
first observation (3). -/
def hdrC9b : LidarPacketHeader :=
  { timestamp := 1, chunkIndex := 1, totalChunks := 5, pointsInThisChunk := 1 }

def ptC9 : LidarPoint := { x := 1, y := 2, z := 3 }

def stC9 : DataAssembler :=
  (DataAssembler.init.addChunk 0 "rover1" hdrC9a []).addChunk 0 "rover1"
    hdrC9b [ptC9]

def partialC9w : PartialScan :=
  { firstArrivalTs := 0, totalChunks := 3, received := [true, false, false],
    points := [] }

def stC9w : DataAssembler :=
  { DataAssembler.init with partials := [(("rover2", 2), partialC9w)] }

/-- A conflicting header (`totalChunks` 7 ≠ recorded 3) with in-range index. -/
def hdrC9w : LidarPacketHeader :=
  { timestamp := 2, chunkIndex := 1, totalChunks := 7, pointsInThisChunk := 1 }

def hdrC10a : LidarPacketHeader :=
  { timestamp := 4, chunkIndex := 0, totalChunks := 3, pointsInThisChunk := 0 }

/-- A zero-total header for a key that already holds a partial. -/
def hdrC10b : LidarPacketHeader :=
  { timestamp := 4, chunkIndex := 1, totalChunks := 0, pointsInThisChunk := 1 }

def ptC10 : LidarPoint := { x := 2, y := 4, z := 6 }

def stC10 : DataAssembler :=
  (DataAssembler.init.addChunk 0 "rover1" hdrC10a []).addChunk 0 "rover1"
    hdrC10b [ptC10]

def hdrC10w : LidarPacketHeader :=
  { timestamp := 5, chunkIndex := 0, totalChunks := 0, pointsInThisChunk := 0 }

lemma mask_length (T : ℕ) (l : List ℕ) : (mask T l).length = T := by
  simp [mask]

lemma mask_nil (T : ℕ) : mask T [] = List.replicate T false := by
  apply List.ext_getElem <;> simp [mask]

lemma mask_getD (T : ℕ) (l : List ℕ) {i : ℕ} (h : i < T) (d : Bool) :
    (mask T l).getD i d = decide (i ∈ l) := by
  rw [List.getD_eq_getElem _ _ (by simpa [mask_length] using h)]
  simp [mask]

lemma mask_set (T : ℕ) (l : List ℕ) {j : ℕ} (h : j < T) :
    (mask T l).set j true = mask T (j :: l) := by
  apply List.ext_getElem
  · simp [mask_length]
  · intro i h1 h2
    rw [List.getElem_set]
    by_cases hij : j = i
    · simp [mask, hij, List.mem_cons]
    · have hij' : ¬ i = j := fun hh => hij hh.symm
      simp [mask, hij, hij', List.mem_cons]

lemma mask_all (T : ℕ) (l : List ℕ) :
    ((mask T l).all (fun b => b) = true) ↔ ∀ i < T, i ∈ l := by
  simp [mask, List.all_eq_true]

lemma mask_isEmpty (T : ℕ) (l : List ℕ) (h : 0 < T) :
    (mask T l).isEmpty = false := by
  cases hm : mask T l with
  | nil =>
    have := mask_length T l
    rw [hm] at this
    simp at this
    omega
  | cons a r => rfl

lemma findP_eraseP (k : PartialKey) (l : List (PartialKey × PartialScan)) :
    findP k (eraseP k l) = none := by
  induction l with
  | nil => rfl
  | cons kv rest ih =>
    by_cases h : kv.1 = k
    · simpa [eraseP, h] using ih
    · simpa [eraseP, findP, h] using ih

lemma findP_setP (k : PartialKey) (v : PartialScan)
    (l : List (PartialKey × PartialScan)) :
    findP k (setP k v l) = some v := by
  induction l with
  | nil => simp [setP, findP]
  | cons kv rest ih =>
    by_cases h : kv.1 = k
    · cases kv; simp_all [setP, findP]
    · cases kv; simp_all [setP, findP]

lemma setP_self (k : PartialKey) (v : PartialScan)
    (l : List (PartialKey × PartialScan)) (h : findP k l = some v) :
    setP k v l = l := by
  induction l with
  | nil => simp [findP] at h
  | cons kv rest ih =>
    cases kv with
    | mk k' v' =>
      by_cases hk : k' = k
      · subst hk
        have h' : v' = v := by simpa [findP] using h
        subst h'
        simp [setP]
      · simp only [findP, if_neg hk] at h
        simp [setP, hk, ih h]

lemma scansFor_append (key : PartialKey) (l l' : List CompletedScan) :
    scansFor key (l ++ l') = scansFor key l ++ scansFor key l' := by
  simp [scansFor]

lemma scansFor_single (key : PartialKey) (P : List LidarPoint) :
    scansFor key [{ roverId := key.1, timestamp := key.2, points := P }] =
      [{ roverId := key.1, timestamp := key.2, points := P }] := by
  simp [scansFor]

lemma flatten_coe_multiset (l : List (List LidarPoint)) :
    Multiset.ofList l.flatten = (l.map Multiset.ofList).sum := by
  induction l with
  | nil => rfl
  | cons a r ih => simp [List.flatten_cons, ← Multiset.coe_add, ih]

/-- Effect of one `addChunk` on a mid-assembly partial: the new chunk's bit is
set and its points appended; the scan completes exactly when the indices
`c.idx :: done` cover `0..T-1`. -/
lemma addChunk_step (st : DataAssembler) (inow : ℚ) (roverId : String) (ts : ℚ)
    (T : ℕ) (c : Chunk) (fa : ℚ) (done : List ℕ) (P : List LidarPoint)
    (hT : 0 < T)
    (hfind : findP (roverId, ts) st.partials =
      some { firstArrivalTs := fa, totalChunks := T,
             received := mask T done, points := P })
    (hidx : c.idx < T) (hnew : c.idx ∉ done) :
    st.addChunk inow roverId
        { timestamp := ts, chunkIndex := c.idx, totalChunks := T,
          pointsInThisChunk := c.pts.length } c.pts =
      if ∀ i < T, i ∈ c.idx :: done then
        { st with partials := eraseP (roverId, ts) st.partials,
                  completed := st.completed ++
                    [{ roverId := roverId, timestamp := ts, points := P ++ c.pts }] }
      else
        { st with partials := setP (roverId, ts)
                    { firstArrivalTs := fa, totalChunks := T,
                      received := mask T (c.idx :: done), points := P ++ c.pts }
                    st.partials } := by
  have hgetD : (mask T done).getD c.idx true = false := by
    rw [mask_getD T done hidx]
    simpa using hnew
  have hcond : c.idx < T ∧ (mask T done).getD c.idx true = false := ⟨hidx, hgetD⟩
  simp only [DataAssembler.addChunk, hfind, Option.getD_some,
    mask_isEmpty T done hT, Bool.false_eq_true, if_false, mask_length,
    if_pos hcond, mask_set T done hidx]
  by_cases hall : ∀ i < T, i ∈ c.idx :: done
  · have hballs := (mask_all T (c.idx :: done)).mpr hall
    rw [if_pos hballs, if_pos hall]
  · have hballs : ¬ ((mask T (c.idx :: done)).all (fun b => b) = true) :=
      fun hc => hall ((mask_all T (c.idx :: done)).mp hc)
    rw [if_neg hballs, if_neg hall]

/-- Effect of `addChunk` when no partial exists for the key: a fresh partial
is created, the chunk recorded; with `totalChunks = T = 1` (so the single
index covers the range) the scan completes immediately. -/
lemma addChunk_fresh (st : DataAssembler) (inow : ℚ) (roverId : String) (ts : ℚ)
    (T : ℕ) (c : Chunk)
    (hT : 0 < T)
    (hnone : findP (roverId, ts) st.partials = none)
    (hidx : c.idx < T) :
    st.addChunk inow roverId
        { timestamp := ts, chunkIndex := c.idx, totalChunks := T,
          pointsInThisChunk := c.pts.length } c.pts =
      if ∀ i < T, i ∈ c.idx :: ([] : List ℕ) then
        { st with partials := eraseP (roverId, ts) st.partials,
                  completed := st.completed ++
                    [{ roverId := roverId, timestamp := ts, points := c.pts }] }
      else
        { st with partials := setP (roverId, ts)
                    { firstArrivalTs := inow, totalChunks := T,
                      received := mask T [c.idx], points := c.pts }
                    st.partials } := by
  have hgetD : (List.replicate T false).getD c.idx true = false := by
    rw [← mask_nil, mask_getD T [] hidx]
    simp
  simp only [DataAssembler.addChunk, hnone, Option.getD_none, PartialScan.default,
    List.isEmpty_nil, if_true, ← mask_nil, mask_length,
    mask_getD T ([] : List ℕ) hidx, mask_set T ([] : List ℕ) hidx,
    List.nil_append]
  have hcond2 : c.idx < T ∧ decide (c.idx ∈ ([] : List ℕ)) = false :=
    ⟨hidx, by simp⟩
  rw [if_pos hcond2]
  by_cases hall : ∀ i < T, i ∈ c.idx :: ([] : List ℕ)
  · have hballs := (mask_all T [c.idx]).mpr hall
    rw [if_pos hballs, if_pos hall]
  · have hballs : ¬ ((mask T [c.idx]).all (fun b => b) = true) :=
      fun hc => hall ((mask_all T [c.idx]).mp hc)
    rw [if_neg hballs, if_neg hall]

/-- Delivering the remaining chunks of a mid-assembly scan completes it:
the partial disappears and exactly one completed scan, carrying the
accumulated points followed by the remaining chunks' points in delivery
order, is appended. -/
lemma deliver_complete (roverId : String) (ts inow : ℚ) (T : ℕ) :
    ∀ (cs : List Chunk) (done : List ℕ) (st : DataAssembler) (fa : ℚ)
      (P : List LidarPoint),
    0 < T → cs ≠ [] →
    (done ++ cs.map Chunk.idx).Perm (List.range T) →
    findP (roverId, ts) st.partials =
      some { firstArrivalTs := fa, totalChunks := T,
             received := mask T done, points := P } →
    findP (roverId, ts) (deliver roverId ts T inow st cs).partials = none ∧
    (deliver roverId ts T inow st cs).completed =
      st.completed ++
        [{ roverId := roverId, timestamp := ts,
           points := P ++ (cs.map Chunk.pts).flatten }] := by
  intro cs
  induction cs with
  | nil => intro done st fa P _ hcs _ _; exact absurd rfl hcs
  | cons c cs' ih =>
    intro done st fa P hT _ hperm hfind
    have hnodup : (done ++ (c :: cs').map Chunk.idx).Nodup :=
      (hperm.nodup_iff).mpr (List.nodup_range T)
    have hmem : c.idx ∈ done ++ (c :: cs').map Chunk.idx := by
      simp [List.mem_append]
    have hidx : c.idx < T := by
      have := hperm.mem_iff.mp hmem
      simpa [List.mem_range] using this
    have hdisj : done.Disjoint ((c :: cs').map Chunk.idx) :=
      (List.nodup_append.mp hnodup).2.2
    have hnew : c.idx ∉ done := by
      intro hc
      exact hdisj hc (by simp)
    have hstep := addChunk_step st inow roverId ts T c fa done P hT hfind hidx hnew
    have hdel : deliver roverId ts T inow st (c :: cs') =
        deliver roverId ts T inow
          (st.addChunk inow roverId
            { timestamp := ts, chunkIndex := c.idx, totalChunks := T,
              pointsInThisChunk := c.pts.length } c.pts) cs' := rfl
    rcases eq_or_ne cs' [] with hsz | hsz
    · subst hsz
      have hall : ∀ i < T, i ∈ c.idx :: done := by
        intro i hi
        have : i ∈ done ++ [c.idx] := by
          refine hperm.symm.mem_iff.mp ?_
          simpa [List.mem_range] using hi
        rcases List.mem_append.mp this with h | h
        · exact List.mem_cons_of_mem _ h
        · simp at h; simp [h]
      rw [hdel, hstep, if_pos hall]
      refine ⟨findP_eraseP _ _, ?_⟩
      simp [deliver]
    · obtain ⟨c2, cs'', rfl⟩ := List.exists_cons_of_ne_nil hsz
      have hnotall : ¬ ∀ i < T, i ∈ c.idx :: done := by
        intro hall
        have hj : c2.idx ∈ done ++ (c :: c2 :: cs'').map Chunk.idx := by
          simp
        have hjT : c2.idx < T := by
          have := hperm.mem_iff.mp hj
          simpa [List.mem_range] using this
        have := hall c2.idx hjT
        rcases List.mem_cons.mp this with h | h
        · -- c2.idx = c.idx contradicts nodup of the map part
          have hmapnodup : ((c :: c2 :: cs'').map Chunk.idx).Nodup :=
            (List.nodup_append.mp hnodup).2.1
          rw [List.map_cons] at hmapnodup
          obtain ⟨hni, -⟩ := List.nodup_cons.mp hmapnodup
          refine hni ?_
          rw [← h]
          simp
        · exact hdisj h (by simp)
      rw [hdel, hstep, if_neg hnotall]
      have hfind' : findP (roverId, ts)
          (setP (roverId, ts)
            ({ firstArrivalTs := fa, totalChunks := T,
               received := mask T (c.idx :: done), points := P ++ c.pts })
            st.partials) =
          some { firstArrivalTs := fa, totalChunks := T,
                 received := mask T (c.idx :: done), points := P ++ c.pts } :=
        findP_setP _ _ _
      have hperm' : ((c.idx :: done) ++ (c2 :: cs'').map Chunk.idx).Perm
          (List.range T) := by
        refine List.Perm.trans ?_ hperm
        have heq : done ++ (c :: c2 :: cs'').map Chunk.idx =
            done ++ c.idx :: (c2 :: cs'').map Chunk.idx := by simp
        rw [heq]
        exact (List.perm_middle).symm
      have hres := ih (c.idx :: done)
        ({ st with partials := setP (roverId, ts)
                     { firstArrivalTs := fa, totalChunks := T,
                       received := mask T (c.idx :: done), points := P ++ c.pts }
                     st.partials })
        fa (P ++ c.pts) hT (by simp) hperm' hfind'
      refine ⟨hres.1, ?_⟩
      rw [hres.2]
      simp

/-- Delivering all the chunks of a scan into an assembler that holds no
partial for the key: the scan completes, appending exactly one completed
scan whose points are the chunks' points in delivery order. -/
lemma deliver_fresh (roverId : String) (ts inow : ℚ) (T : ℕ)
    (cs : List Chunk) (st : DataAssembler)
    (hT : 0 < T) (hcs : cs ≠ [])
    (hperm : (cs.map Chunk.idx).Perm (List.range T))
    (hnone : findP (roverId, ts) st.partials = none) :
    findP (roverId, ts) (deliver roverId ts T inow st cs).partials = none ∧
    (deliver roverId ts T inow st cs).completed =
      st.completed ++
        [{ roverId := roverId, timestamp := ts,
           points := (cs.map Chunk.pts).flatten }] := by
  cases cs with
  | nil => exact absurd rfl hcs
  | cons c cs' =>
    have hidx : c.idx < T := by
      have h0 : c.idx ∈ (c :: cs').map Chunk.idx := by simp
      have := hperm.mem_iff.mp h0
      simpa [List.mem_range] using this
    have hstep := addChunk_fresh st inow roverId ts T c hT hnone hidx
    have hdel : deliver roverId ts T inow st (c :: cs') =
        deliver roverId ts T inow
          (st.addChunk inow roverId
            { timestamp := ts, chunkIndex := c.idx, totalChunks := T,
              pointsInThisChunk := c.pts.length } c.pts) cs' := rfl
    have hnodup : ((c :: cs').map Chunk.idx).Nodup :=
      (hperm.nodup_iff).mpr (List.nodup_range T)
    rcases eq_or_ne cs' [] with hsz | hsz
    · subst hsz
      have hall : ∀ i < T, i ∈ c.idx :: ([] : List ℕ) := by
        intro i hi
        have : i ∈ (c :: ([] : List Chunk)).map Chunk.idx :=
          hperm.symm.mem_iff.mp (by simpa [List.mem_range] using hi)
        simpa using this
      rw [hdel, hstep, if_pos hall]
      refine ⟨findP_eraseP _ _, ?_⟩
      simp [deliver]
    · obtain ⟨c2, cs'', rfl⟩ := List.exists_cons_of_ne_nil hsz
      have hnotall : ¬ ∀ i < T, i ∈ c.idx :: ([] : List ℕ) := by
        intro hall
        have hj : c2.idx ∈ (c :: c2 :: cs'').map Chunk.idx := by simp
        have hjT : c2.idx < T := by
          have := hperm.mem_iff.mp hj
          simpa [List.mem_range] using this
        have := hall c2.idx hjT
        simp only [List.mem_cons, List.not_mem_nil, or_false] at this
        rw [List.map_cons] at hnodup
        obtain ⟨hni, -⟩ := List.nodup_cons.mp hnodup
        refine hni ?_
        rw [← this]
        simp
      rw [hdel, hstep, if_neg hnotall]
      have hfind' : findP (roverId, ts)
          (setP (roverId, ts)
            ({ firstArrivalTs := inow, totalChunks := T,
               received := mask T [c.idx], points := c.pts }) st.partials) =
          some { firstArrivalTs := inow, totalChunks := T,
                 received := mask T [c.idx], points := c.pts } :=
        findP_setP _ _ _
      have hperm' : ([c.idx] ++ (c2 :: cs'').map Chunk.idx).Perm (List.range T) := by
        simpa using hperm
      have hres := deliver_complete roverId ts inow T (c2 :: cs'') [c.idx]
        ({ st with partials := setP (roverId, ts)
                     { firstArrivalTs := inow, totalChunks := T,
                       received := mask T [c.idx], points := c.pts }
                     st.partials })
        inow c.pts hT (by simp) hperm' hfind'
      refine ⟨hres.1, ?_⟩
      rw [hres.2]
      simp

lemma isEmpty_false_of_ne_nil {l : List Bool} (h : l ≠ []) : l.isEmpty = false := by
  cases l with
  | nil => exact absurd rfl h
  | cons a r => rfl

lemma eraseP_findP_none (k : PartialKey) (l : List (PartialKey × PartialScan))
    (h : findP k l = none) : eraseP k l = l := by
  induction l with
  | nil => rfl
  | cons kv rest ih =>
    by_cases hk : kv.1 = k
    · simp [findP, hk] at h
    · have h' : findP k rest = none := by simpa [findP, hk] using h
      have hstep : eraseP k (kv :: rest) = kv :: eraseP k rest := by
        simp [eraseP, List.filter_cons, hk]
      rw [hstep, ih h']

/-- C1 — Chunk reassembly exactness: delivering the chunks of a single
(rover-id, timestamp) key, each with the same `total_chunks = T ≥ 1` and
distinct chunk indices covering `0..T-1`, in any order without duplicates,
into an assembler holding no partial and no completed scan for that key,
makes `retrieveCompleted` return exactly one `CompletedScan` for the key,
whose point list (the chunks' points concatenated in delivery order) equals,
as a multiset, the union of the delivered chunks' point multisets. -/
theorem C1_chunk_reassembly_exactness (roverId : String) (ts inow : ℚ)
    (T : ℕ) (cs : List Chunk) (st0 : DataAssembler)
    (hT : 1 ≤ T)
    (hperm : (cs.map Chunk.idx).Perm (List.range T))
    (hnone : findP (roverId, ts) st0.partials = none)
    (hclean : scansFor (roverId, ts) st0.completed = []) :
    scansFor (roverId, ts)
        ((deliver roverId ts T inow st0 cs).retrieveCompleted).1 =
      [{ roverId := roverId, timestamp := ts,
         points := (cs.map Chunk.pts).flatten }] ∧
    Multiset.ofList (cs.map Chunk.pts).flatten =
      (cs.map (fun c => Multiset.ofList c.pts)).sum := by
  have hcs : cs ≠ [] := by
    intro h
    subst h
    have := hperm.length_eq
    simp at this
    omega
  have hres := deliver_fresh roverId ts inow T cs st0 (by omega) hcs hperm hnone
  constructor
  · show scansFor (roverId, ts) (deliver roverId ts T inow st0 cs).completed = _
    rw [hres.2, scansFor_append, hclean]
    simpa using scansFor_single (roverId, ts) ((cs.map Chunk.pts).flatten)
  · have h := flatten_coe_multiset (cs.map Chunk.pts)
    rwa [List.map_map] at h


/-- Witness for C1 at a concrete two-chunk scan delivered out of order. -/
theorem C1_witness :
    scansFor ("rover1", 1)
        ((deliver "rover1" 1 2 0 DataAssembler.init
          [chunkW1, chunkW0]).retrieveCompleted).1 =
      [{ roverId := "rover1", timestamp := 1,
         points := ([chunkW1, chunkW0].map Chunk.pts).flatten }] ∧
    Multiset.ofList ([chunkW1, chunkW0].map Chunk.pts).flatten =
      ([chunkW1, chunkW0].map (fun c => Multiset.ofList c.pts)).sum :=
  C1_chunk_reassembly_exactness "rover1" 1 0 2 [chunkW1, chunkW0]
    DataAssembler.init (by decide) (by decide) rfl rfl

/-- C7 counterexample: a datagram of 1220 bytes whose header declares 200
points is accepted (the count is clamped to 100 before the length check),
although its length differs from header-size + declared · 12 and the declared
count violates the ≤ 100 bound the claim asserts. -/
theorem C7_counterexample :
    lidarDatagramAccepted 1220 200 = true ∧
    1220 ≠ WIRE_LIDAR_HEADER_SIZE + 200 * WIRE_LIDAR_POINT_SIZE ∧
    200 > MAX_LIDAR_POINTS_PER_PACKET := by decide

/-- C7 (amended) — Lidar datagram acceptance: a datagram is accepted iff its
length equals header size plus `min(points_in_chunk, 100) · 12`, the declared
count clamped to `MAX_LIDAR_POINTS_PER_PACKET` before the length check. -/
theorem C7_amended_lidar_acceptance (len declared : ℕ) :
    lidarDatagramAccepted len declared = true ↔
      len = WIRE_LIDAR_HEADER_SIZE +
        min declared MAX_LIDAR_POINTS_PER_PACKET * WIRE_LIDAR_POINT_SIZE := by
  simp only [lidarDatagramAccepted, clampedPointsCount, WIRE_LIDAR_HEADER_SIZE,
    WIRE_LIDAR_POINT_SIZE, MAX_LIDAR_POINTS_PER_PACKET]
  constructor
  · intro hacc
    by_cases h : len ≥ 20
    · rw [if_pos h] at hacc
      have hlen := of_decide_eq_true hacc
      by_cases h2 : declared > 100
      · rw [if_pos h2] at hlen; omega
      · rw [if_neg h2] at hlen; omega
    · rw [if_neg h] at hacc
      exact absurd hacc (by simp)
  · intro heq
    have h : len ≥ 20 := by omega
    rw [if_pos h]
    apply decide_eq_true
    by_cases h2 : declared > 100
    · rw [if_pos h2]; omega
    · rw [if_neg h2]; omega

/-- C8 counterexample: a partial whose caller-clock age (the `now` argument,
10 s) exceeds the 0.2 s timeout survives `maintenance`, because the source
ignores the argument and consults its internal clock (here 0 s). -/
theorem C8_counterexample :
    (10 : ℚ) - partialC8.firstArrivalTs > 0.2 ∧
    (stC8.maintenance 10 0).partials = stC8.partials ∧
    findP ("rover1", 1) (stC8.maintenance 10 0).partials = some partialC8 := by
  refine ⟨by norm_num [partialC8], ?_, ?_⟩
  · norm_num [DataAssembler.maintenance, stC8, partialC8, DataAssembler.init,
      List.filter_cons]
  · norm_num [DataAssembler.maintenance, stC8, partialC8, DataAssembler.init,
      List.filter_cons, findP]

/-- C8 (amended) — Timeout eviction by the internal clock: `maintenance`
ignores its `now` argument entirely; it keeps exactly the partials whose age
by the internal static clock is at most 0.2 s, and never touches the
completed queue. -/
theorem C8_amended_internal_clock_eviction (st : DataAssembler)
    (argA argB internalNow : ℚ) :
    st.maintenance argA internalNow = st.maintenance argB internalNow ∧
    (st.maintenance argA internalNow).completed = st.completed ∧
    ∀ kv : PartialKey × PartialScan,
      kv ∈ (st.maintenance argA internalNow).partials ↔
        kv ∈ st.partials ∧ internalNow - kv.2.firstArrivalTs ≤ 0.2 := by
  refine ⟨rfl, rfl, fun kv => ?_⟩
  simp [DataAssembler.maintenance, List.mem_filter, not_lt]

/-- C9 counterexample: after a first chunk recorded `totalChunks = 3`, a
conflicting chunk (`totalChunks = 5`, index 1) is *not* dropped: its
received bit is set and its points are appended to the partial. -/
theorem C9_counterexample :
    hdrC9b.totalChunks ≠ hdrC9a.totalChunks ∧
    findP ("rover1", 1) stC9.partials =
      some { firstArrivalTs := 0, totalChunks := 3,
             received := [true, true, false], points := [ptC9] } := by decide

/-- C9 (amended) — First observation authoritative for bounds and completion:
when a chunk arrives for a key that already holds a (not yet complete)
partial, the header's `totalChunks` is ignored: the recorded total and bitset
length never change; a chunk whose index is out of the recorded range or
whose bit is already set is dropped with no effect at all; a chunk with an
in-range unseen index has its bit set and its points appended (completing
the scan if it was the last missing bit) — even when its header's
`totalChunks` conflicts with the recorded one. -/
theorem C9_amended_first_observation (st : DataAssembler) (inow : ℚ)
    (roverId : String) (hdr : LidarPacketHeader) (pts : List LidarPoint)
    (p : PartialScan)
    (hfind : findP (roverId, hdr.timestamp) st.partials = some p)
    (hne : p.received ≠ [])
    (hincomplete : ¬ (p.received.all (fun b => b) = true)) :
    (∀ q, findP (roverId, hdr.timestamp)
        (st.addChunk inow roverId hdr pts).partials = some q →
      q.totalChunks = p.totalChunks ∧ q.received.length = p.received.length) ∧
    (¬ (hdr.chunkIndex < p.received.length
          ∧ p.received.getD hdr.chunkIndex true = false) →
      st.addChunk inow roverId hdr pts = st) ∧
    ((hdr.chunkIndex < p.received.length
        ∧ p.received.getD hdr.chunkIndex true = false) →
      (if (p.received.set hdr.chunkIndex true).all (fun b => b) then
        findP (roverId, hdr.timestamp)
            (st.addChunk inow roverId hdr pts).partials = none ∧
          (st.addChunk inow roverId hdr pts).completed = st.completed ++
            [{ roverId := roverId, timestamp := hdr.timestamp,
               points := p.points ++ pts }]
      else
        findP (roverId, hdr.timestamp)
            (st.addChunk inow roverId hdr pts).partials =
          some { p with received := p.received.set hdr.chunkIndex true,
                        points := p.points ++ pts } ∧
          (st.addChunk inow roverId hdr pts).completed = st.completed)) := by
  have hie : p.received.isEmpty = false := isEmpty_false_of_ne_nil hne
  by_cases hcond : hdr.chunkIndex < p.received.length
      ∧ p.received.getD hdr.chunkIndex true = false
  · by_cases hall : (p.received.set hdr.chunkIndex true).all (fun b => b) = true
    · have hstep : st.addChunk inow roverId hdr pts =
          { st with partials := eraseP (roverId, hdr.timestamp) st.partials,
                    completed := st.completed ++
                      [{ roverId := roverId, timestamp := hdr.timestamp,
                         points := p.points ++ pts }] } := by
        simp only [DataAssembler.addChunk, hfind, Option.getD_some, hie,
          Bool.false_eq_true, if_false, if_pos hcond, hall, if_true]
      refine ⟨?_, ?_, ?_⟩
      · intro q hq
        rw [hstep] at hq
        simp only [findP_eraseP] at hq
        exact absurd hq (by simp)
      · intro hc; exact absurd hcond hc
      · intro _
        rw [if_pos hall, hstep]
        exact ⟨findP_eraseP _ _, rfl⟩
    · have hstep : st.addChunk inow roverId hdr pts =
          { st with partials := setP (roverId, hdr.timestamp)
                      { p with received := p.received.set hdr.chunkIndex true,
                               points := p.points ++ pts }
                      st.partials } := by
        simp only [DataAssembler.addChunk, hfind, Option.getD_some, hie,
          Bool.false_eq_true, if_false, if_pos hcond, hall]
      refine ⟨?_, ?_, ?_⟩
      · intro q hq
        rw [hstep] at hq
        simp only [findP_setP, Option.some.injEq] at hq
        subst hq
        simp
      · intro hc; exact absurd hcond hc
      · intro _
        rw [if_neg hall, hstep]
        exact ⟨findP_setP _ _ _, rfl⟩
  · have hstep : st.addChunk inow roverId hdr pts =
        { st with partials := setP (roverId, hdr.timestamp) p st.partials } := by
      simp only [DataAssembler.addChunk, hfind, Option.getD_some, hie,
        Bool.false_eq_true, if_false, if_neg hcond, hincomplete]
    have hid : st.addChunk inow roverId hdr pts = st := by
      rw [hstep, setP_self _ _ _ hfind]
    refine ⟨?_, fun _ => hid, fun hc => absurd hc hcond⟩
    intro q hq
    rw [hid, hfind, Option.some.injEq] at hq
    subst hq
    exact ⟨rfl, rfl⟩

/-- Witness for C9 (amended) at a concrete conflicting chunk. -/
theorem C9_amended_witness :
    (∀ q, findP ("rover2", 2)
        (stC9w.addChunk 0 "rover2" hdrC9w [ptC9]).partials = some q →
      q.totalChunks = partialC9w.totalChunks ∧
        q.received.length = partialC9w.received.length) ∧
    (¬ (hdrC9w.chunkIndex < partialC9w.received.length
          ∧ partialC9w.received.getD hdrC9w.chunkIndex true = false) →
      stC9w.addChunk 0 "rover2" hdrC9w [ptC9] = stC9w) ∧
    ((hdrC9w.chunkIndex < partialC9w.received.length
        ∧ partialC9w.received.getD hdrC9w.chunkIndex true = false) →
      (if (partialC9w.received.set hdrC9w.chunkIndex true).all (fun b => b) then
        findP ("rover2", 2)
            (stC9w.addChunk 0 "rover2" hdrC9w [ptC9]).partials = none ∧
          (stC9w.addChunk 0 "rover2" hdrC9w [ptC9]).completed =
            stC9w.completed ++
              [{ roverId := "rover2", timestamp := 2,
                 points := partialC9w.points ++ [ptC9] }]
      else
        findP ("rover2", 2)
            (stC9w.addChunk 0 "rover2" hdrC9w [ptC9]).partials =
          some { partialC9w with
                   received := partialC9w.received.set hdrC9w.chunkIndex true,
                   points := partialC9w.points ++ [ptC9] } ∧
          (stC9w.addChunk 0 "rover2" hdrC9w [ptC9]).completed =
            stC9w.completed)) :=
  C9_amended_first_observation stC9w 0 "rover2" hdrC9w [ptC9] partialC9w
    (by decide) (by decide) (by decide)

/-- C10 counterexample: a `totalChunks = 0` chunk arriving for a key that
already holds a partial (recorded total 3) does not emit any CompletedScan —
its points are simply absorbed into the partial under the recorded total. -/
theorem C10_counterexample :
    hdrC10b.totalChunks = 0 ∧
    stC10.completed = [] ∧
    findP ("rover1", 4) stC10.partials =
      some { firstArrivalTs := 0, totalChunks := 3,
             received := [true, true, false], points := [ptC10] } := by decide

/-- C10 (amended) — Zero `total_chunks` on a fresh key: when no partial
exists for the key, a `totalChunks = 0` chunk is not rejected; the assembler
immediately emits a CompletedScan with an empty point list (the chunk's
points are discarded) and leaves the partial table unchanged — so each
subsequent such call for the key emits another empty CompletedScan. -/
theorem C10_amended_zero_total_fresh_key (st : DataAssembler) (inow : ℚ)
    (roverId : String) (hdr : LidarPacketHeader) (pts : List LidarPoint)
    (h0 : hdr.totalChunks = 0)
    (hnone : findP (roverId, hdr.timestamp) st.partials = none) :
    st.addChunk inow roverId hdr pts =
      { st with completed := st.completed ++
          [{ roverId := roverId, timestamp := hdr.timestamp, points := [] }] } := by
  have herase : eraseP (roverId, hdr.timestamp) st.partials = st.partials :=
    eraseP_findP_none _ _ hnone
  simp only [DataAssembler.addChunk, hnone, Option.getD_none, PartialScan.default,
    List.isEmpty_nil, if_true, h0, List.replicate_zero, List.length_nil,
    Nat.not_lt_zero, false_and, if_false, List.all_nil, herase]

/-- Witness for C10 (amended): one zero-total chunk on the fresh assembler. -/
theorem C10_amended_witness :
    DataAssembler.init.addChunk 0 "rover1" hdrC10w [ptC10] =
      { DataAssembler.init with completed := DataAssembler.init.completed ++
          [{ roverId := "rover1", timestamp := hdrC10w.timestamp,
             points := [] }] } :=
  C10_amended_zero_total_fresh_key DataAssembler.init 0 "rover1" hdrC10w
    [ptC10] rfl rfl

lemma lor14_and_two (a : ℕ) : (a ||| 14) &&& 2 = 2 := by
  apply Nat.eq_of_testBit_eq
  intro i
  rw [Nat.testBit_and, Nat.testBit_lor]
  match i with
  | 0 => simp [show Nat.testBit 2 0 = false from rfl]
  | 1 => simp [show Nat.testBit 14 1 = true from rfl,
               show Nat.testBit 2 1 = true from rfl]
  | i + 2 =>
    have h2 : Nat.testBit 2 (i + 2) = false := by
      apply Nat.testBit_eq_false_of_lt
      have : (2:ℕ) ^ 2 ≤ 2 ^ (i + 2) := Nat.pow_le_pow_right (by norm_num) (by omega)
      omega
    simp [h2]

/-- C2 — Disagree-zone remap threshold: for a valid leaf cell with
`n = N_sat = 20` and no pending disagreement history (`disagree_hits = 0`,
the state a run of agreeing samples leaves), integrating `K = 3` successive
points each at least `τ_replace = 0.7` from the stable mean, with ordered
timestamps spanning at most `Δt_window = 1.0 s`, REMAPs the cell on the
third point (CHANGED set, `z_mean` equal to the last `y`, `n = 1`,
`disagree_hits = 0`, tile-dirty signalled); the first and second such points
do not remap (mean and count unchanged, no dirty).  The literal parameters
are exactly the `ElevationMap` constructor defaults, as the first conjunct
records. -/
theorem C2_disagree_remap_threshold (c : ElevCell) (y1 y2 y3 t1 t2 t3 : ℚ)
    (hvalid : c.valid = true) (hn : c.n = 20) (hhits : c.disagreeHits = 0)
    (h1 : |y1 - c.z_mean| ≥ 0.7) (h2 : |y2 - c.z_mean| ≥ 0.7)
    (h3 : |y3 - c.z_mean| ≥ 0.7)
    (ht12 : t1 ≤ t2) (ht23 : t2 ≤ t3) (hspan : t3 - t1 ≤ 1) :
    (ElevationMap.init.tauAccept = 0.25 ∧ ElevationMap.init.tauReplace = 0.7 ∧
     ElevationMap.init.K = 3 ∧ ElevationMap.init.Nsat = 20 ∧
     ElevationMap.init.Nconf = 5 ∧ ElevationMap.init.tauUpload = 0.06) ∧
    ((integrateCellPoint c y1 t1 0.25 0.7 3 20 5 0.06).1.z_mean = c.z_mean ∧
     (integrateCellPoint c y1 t1 0.25 0.7 3 20 5 0.06).1.n = c.n ∧
     (integrateCellPoint c y1 t1 0.25 0.7 3 20 5 0.06).2 = false) ∧
    ((integrateCellPoint (integrateCellPoint c y1 t1 0.25 0.7 3 20 5 0.06).1
        y2 t2 0.25 0.7 3 20 5 0.06).1.z_mean = c.z_mean ∧
     (integrateCellPoint (integrateCellPoint c y1 t1 0.25 0.7 3 20 5 0.06).1
        y2 t2 0.25 0.7 3 20 5 0.06).1.n = c.n ∧
     (integrateCellPoint (integrateCellPoint c y1 t1 0.25 0.7 3 20 5 0.06).1
        y2 t2 0.25 0.7 3 20 5 0.06).2 = false) ∧
    ((integrateCellPoint (integrateCellPoint
          (integrateCellPoint c y1 t1 0.25 0.7 3 20 5 0.06).1
          y2 t2 0.25 0.7 3 20 5 0.06).1 y3 t3 0.25 0.7 3 20 5 0.06).1.z_mean
        = y3 ∧
     (integrateCellPoint (integrateCellPoint
          (integrateCellPoint c y1 t1 0.25 0.7 3 20 5 0.06).1
          y2 t2 0.25 0.7 3 20 5 0.06).1 y3 t3 0.25 0.7 3 20 5 0.06).1.n = 1 ∧
     (integrateCellPoint (integrateCellPoint
          (integrateCellPoint c y1 t1 0.25 0.7 3 20 5 0.06).1
          y2 t2 0.25 0.7 3 20 5 0.06).1 y3 t3
          0.25 0.7 3 20 5 0.06).1.disagreeHits = 0 ∧
     (integrateCellPoint (integrateCellPoint
          (integrateCellPoint c y1 t1 0.25 0.7 3 20 5 0.06).1
          y2 t2 0.25 0.7 3 20 5 0.06).1 y3 t3
          0.25 0.7 3 20 5 0.06).1.flags &&& ELEV_CHANGED = ELEV_CHANGED ∧
     (integrateCellPoint (integrateCellPoint
          (integrateCellPoint c y1 t1 0.25 0.7 3 20 5 0.06).1
          y2 t2 0.25 0.7 3 20 5 0.06).1 y3 t3 0.25 0.7 3 20 5 0.06).2
        = true) := by
  have hv : ¬ c.valid = false := by simp [hvalid]
  have hq : (0.25 : ℚ) < 0.7 := by norm_num
  have hna1 : ¬ (|y1 - c.z_mean| ≤ (0.25:ℚ)) := by
    intro hle; linarith
  have hhits1 : (if t1 - c.lastDisagreeTs ≤ 1 then
      (if c.disagreeHits < 255 then c.disagreeHits + 1 else c.disagreeHits)
      else 1) = 1 := by
    by_cases hw : t1 - c.lastDisagreeTs ≤ 1 <;> simp [hw, hhits]
  have hs1 : integrateCellPoint c y1 t1 0.25 0.7 3 20 5 0.06 =
      ({ c with disagreeHits := 1, lastDisagreeTs := t1 }, false) := by
    simp only [integrateCellPoint, if_neg hv, if_neg hna1, if_pos h1, hhits1]
    rw [if_neg]
    simp only [hn]
    omega
  have hna2 : ¬ (|y2 - c.z_mean| ≤ (0.25:ℚ)) := by
    intro hle; linarith
  have hs2 : integrateCellPoint
      ({ c with disagreeHits := 1, lastDisagreeTs := t1 }) y2 t2
      0.25 0.7 3 20 5 0.06 =
      ({ c with disagreeHits := 2, lastDisagreeTs := t2 }, false) := by
    have hw2 : t2 - t1 ≤ (1:ℚ) := by linarith
    simp only [integrateCellPoint, if_neg hv, if_neg hna2, if_pos h2,
      if_pos hw2]
    norm_num [hn]
  have hna3 : ¬ (|y3 - c.z_mean| ≤ (0.25:ℚ)) := by
    intro hle; linarith
  have hs3 : integrateCellPoint
      ({ c with disagreeHits := 2, lastDisagreeTs := t2 }) y3 t3
      0.25 0.7 3 20 5 0.06 =
      ({ c with z_mean := y3, prev_z_mean := y3, z_var := 0, n := 1,
                disagreeHits := 0, lastDisagreeTs := t3,
                flags := c.flags |||
                  (ELEV_CHANGED ||| ELEV_DIRTY ||| ELEV_VALID),
                valid := true }, true) := by
    have hw3 : t3 - t2 ≤ (1:ℚ) := by linarith
    simp only [integrateCellPoint, if_neg hv, if_neg hna3, if_pos h3,
      if_pos hw3]
    norm_num [hn]
  have ha1 : (integrateCellPoint c y1 t1 0.25 0.7 3 20 5 0.06).1 =
      { c with disagreeHits := 1, lastDisagreeTs := t1 } := by rw [hs1]
  have ha2 : (integrateCellPoint
      (integrateCellPoint c y1 t1 0.25 0.7 3 20 5 0.06).1 y2 t2
      0.25 0.7 3 20 5 0.06).1 =
      { c with disagreeHits := 2, lastDisagreeTs := t2 } := by rw [ha1, hs2]
  have ha3 : (integrateCellPoint (integrateCellPoint
      (integrateCellPoint c y1 t1 0.25 0.7 3 20 5 0.06).1 y2 t2
      0.25 0.7 3 20 5 0.06).1 y3 t3 0.25 0.7 3 20 5 0.06) =
      ({ c with z_mean := y3, prev_z_mean := y3, z_var := 0, n := 1,
                disagreeHits := 0, lastDisagreeTs := t3,
                flags := c.flags |||
                  (ELEV_CHANGED ||| ELEV_DIRTY ||| ELEV_VALID),
                valid := true }, true) := by rw [ha2, hs3]
  refine ⟨⟨rfl, rfl, rfl, rfl, rfl, rfl⟩, ?_, ?_, ?_⟩
  · rw [hs1]
    exact ⟨rfl, rfl, rfl⟩
  · rw [ha1, hs2]
    exact ⟨rfl, rfl, rfl⟩
  · rw [ha3]
    refine ⟨rfl, rfl, rfl, ?_, rfl⟩
    show (c.flags ||| (ELEV_CHANGED ||| ELEV_DIRTY ||| ELEV_VALID)) &&&
      ELEV_CHANGED = ELEV_CHANGED
    simp only [ELEV_CHANGED, ELEV_DIRTY, ELEV_VALID]
    have h14 : (2 ||| 4 ||| 8 : ℕ) = 14 := by decide
    rw [h14, lor14_and_two]

/-- Witness for C2 at a concrete saturated cell and three disagreeing
points. -/
theorem C2_witness :
    (ElevationMap.init.tauAccept = 0.25 ∧ ElevationMap.init.tauReplace = 0.7 ∧
     ElevationMap.init.K = 3 ∧ ElevationMap.init.Nsat = 20 ∧
     ElevationMap.init.Nconf = 5 ∧ ElevationMap.init.tauUpload = 0.06) ∧
    ((integrateCellPoint cellC2 1 0 0.25 0.7 3 20 5 0.06).1.z_mean
        = cellC2.z_mean ∧
     (integrateCellPoint cellC2 1 0 0.25 0.7 3 20 5 0.06).1.n = cellC2.n ∧
     (integrateCellPoint cellC2 1 0 0.25 0.7 3 20 5 0.06).2 = false) ∧
    ((integrateCellPoint (integrateCellPoint cellC2 1 0 0.25 0.7 3 20 5 0.06).1
        1 0.5 0.25 0.7 3 20 5 0.06).1.z_mean = cellC2.z_mean ∧
     (integrateCellPoint (integrateCellPoint cellC2 1 0 0.25 0.7 3 20 5 0.06).1
        1 0.5 0.25 0.7 3 20 5 0.06).1.n = cellC2.n ∧
     (integrateCellPoint (integrateCellPoint cellC2 1 0 0.25 0.7 3 20 5 0.06).1
        1 0.5 0.25 0.7 3 20 5 0.06).2 = false) ∧
    ((integrateCellPoint (integrateCellPoint
          (integrateCellPoint cellC2 1 0 0.25 0.7 3 20 5 0.06).1
          1 0.5 0.25 0.7 3 20 5 0.06).1 1 1 0.25 0.7 3 20 5 0.06).1.z_mean
        = 1 ∧
     (integrateCellPoint (integrateCellPoint
          (integrateCellPoint cellC2 1 0 0.25 0.7 3 20 5 0.06).1
          1 0.5 0.25 0.7 3 20 5 0.06).1 1 1 0.25 0.7 3 20 5 0.06).1.n = 1 ∧
     (integrateCellPoint (integrateCellPoint
          (integrateCellPoint cellC2 1 0 0.25 0.7 3 20 5 0.06).1
          1 0.5 0.25 0.7 3 20 5 0.06).1 1 1
          0.25 0.7 3 20 5 0.06).1.disagreeHits = 0 ∧
     (integrateCellPoint (integrateCellPoint
          (integrateCellPoint cellC2 1 0 0.25 0.7 3 20 5 0.06).1
          1 0.5 0.25 0.7 3 20 5 0.06).1 1 1
          0.25 0.7 3 20 5 0.06).1.flags &&& ELEV_CHANGED = ELEV_CHANGED ∧
     (integrateCellPoint (integrateCellPoint
          (integrateCellPoint cellC2 1 0 0.25 0.7 3 20 5 0.06).1
          1 0.5 0.25 0.7 3 20 5 0.06).1 1 1 0.25 0.7 3 20 5 0.06).2
        = true) :=
  C2_disagree_remap_threshold cellC2 1 1 1 0 0.5 1 rfl rfl rfl
    (by norm_num [cellC2]) (by norm_num [cellC2]) (by norm_num [cellC2])
    (by norm_num) (by norm_num) (by norm_num)

lemma mSmall_eq : mSmall = mSmallG := by
  norm_num [mSmall, mSmallG, ElevationMap.init, ElevationMap.setParameters,
    powerLoop]

lemma mC3a_eq : mC3a = { mSmallG with tiles := [(kTile00, tileC3a)] } := by
  show mSmall.integrateScan [pC3a] 0 = _
  rw [mSmall_eq]
  norm_num [mSmallG, pC3a, cellC3a, kTile00, tileC3a,
    ElevationMap.integrateScan, ElevationMap.integrateOne,
    ElevationMap.getOrCreateTile, findTile, insertTileSorted, TileKey.ltB,
    updateTile, Tile.create, Tile.integratePoint, Tile.locateLeaf, locateGo,
    childIndexFor, QuadNode.isLeafB, QuadNode.split, QuadNode.child,
    QuadNode.setChild, QuadNode.setCell, QuadNode.cell, cellAtPath,
    setCellAtPath, integrateCellPoint, ElevCell.initCell, ELEV_VALID,
    ELEV_DIRTY, ELEV_CHANGED]
  decide

lemma mC3b_eq : mC3b =
    { mSmallG with tiles := [(kTile00, { tileC3a with dirty := false })] } := by
  show (mC3a.consumeDirtyTiles).2 = _
  rw [mC3a_eq]
  norm_num [ElevationMap.consumeDirtyTiles, consumeDirtyGo, tileC3a]

lemma mC3c_eq : mC3c =
    { mSmallG with tiles :=
        [(kTile00, { tileC3a with dirty := false, root := .leaf cellC3c })] } := by
  show mC3b.integrateScan [pC3b] 0 = _
  rw [mC3b_eq]
  norm_num [mSmallG, pC3b, cellC3a, cellC3c, kTile00, tileC3a,
    ElevationMap.integrateScan, ElevationMap.integrateOne,
    ElevationMap.getOrCreateTile, findTile, insertTileSorted, TileKey.ltB,
    updateTile, Tile.create, Tile.integratePoint, Tile.locateLeaf, locateGo,
    childIndexFor, QuadNode.isLeafB, QuadNode.split, QuadNode.child,
    QuadNode.setChild, QuadNode.setCell, QuadNode.cell, cellAtPath,
    setCellAtPath, integrateCellPoint, ElevCell.initCell, ELEV_VALID,
    ELEV_DIRTY, ELEV_CHANGED, abs_neg, abs_of_pos, abs_of_nonneg, abs_zero]

lemma mC3d_eq : mC3d =
    { mSmallG with tiles :=
        [(kTile00, { tileC3a with dirty := false, root := .leaf cellC3d })] } := by
  show mC3c.integrateScan [pC3c] 0 = _
  rw [mC3c_eq]
  norm_num [mSmallG, pC3c, cellC3a, cellC3c, cellC3d, kTile00, tileC3a,
    ElevationMap.integrateScan, ElevationMap.integrateOne,
    ElevationMap.getOrCreateTile, findTile, insertTileSorted, TileKey.ltB,
    updateTile, Tile.create, Tile.integratePoint, Tile.locateLeaf, locateGo,
    childIndexFor, QuadNode.isLeafB, QuadNode.split, QuadNode.child,
    QuadNode.setChild, QuadNode.setCell, QuadNode.cell, cellAtPath,
    setCellAtPath, integrateCellPoint, ElevCell.initCell, ELEV_VALID,
    ELEV_DIRTY, ELEV_CHANGED, abs_neg, abs_of_pos, abs_of_nonneg, abs_zero]

/-- C3 counterexample: from the reachable state `mC3c` (cell mean −1/20,
dirty flag consumed), integrating the point (0.1, 0.15, 0.1) moves the
cell's `z_mean` to 1/20 — a change of 1/10 > τ_upload = 0.06 — yet the
owning tile's dirty flag stays `false`, because the source compares
`z_mean` against `prev_z_mean` (= 0), not against the per-call change. -/
theorem C3_counterexample :
    (mC3c.cellAt 0.1 0.1).map ElevCell.z_mean = some (-(1/20)) ∧
    (mC3d.cellAt 0.1 0.1).map ElevCell.z_mean = some (1/20) ∧
    (1/20 : ℚ) - -(1/20) > ElevationMap.init.tauUpload ∧
    mC3d.tileDirty 0 0 = some false := by
  refine ⟨?_, ?_, ?_, ?_⟩
  · rw [mC3c_eq]
    norm_num [ElevationMap.cellAt, mSmallG, findTile, kTile00, tileC3a,
      Tile.locateLeaf, locateGo, cellAtPath, QuadNode.cell, cellC3c, cellC3a]
  · rw [mC3d_eq]
    norm_num [ElevationMap.cellAt, mSmallG, findTile, kTile00, tileC3a,
      Tile.locateLeaf, locateGo, cellAtPath, QuadNode.cell, cellC3d, cellC3a]
  · show (1/20 : ℚ) - -(1/20) > (0.06 : ℚ)
    norm_num
  · rw [mC3d_eq]
    norm_num [ElevationMap.tileDirty, mSmallG, findTile, kTile00, tileC3a]

/-- C3 (amended) — Dirty-flag discipline of the `integratePoint` cell update:
whenever the call returns without signalling the tile dirty, the cell was
already valid (initialization always signals dirty), its export reference
`prev_z_mean` and its `flags` are untouched (a REMAP always signals dirty),
and its mean either did not move at all or remains within `τ_upload` of
`prev_z_mean`.  Contrapositively: initializing a cell, REMAPping it, or
moving the mean beyond `τ_upload` from the last exported mean always sets
the owning tile's dirty flag before `integratePoint` returns. -/
theorem C3_amended_dirty_flag (tauAccept tauReplace : ℚ) (K Nsat Nconf : ℕ)
    (tauUpload : ℚ) (c : ElevCell) (y now : ℚ)
    (hnd : (integrateCellPoint c y now tauAccept tauReplace K Nsat Nconf
      tauUpload).2 = false) :
    c.valid = true ∧
    (integrateCellPoint c y now tauAccept tauReplace K Nsat Nconf
      tauUpload).1.prev_z_mean = c.prev_z_mean ∧
    (integrateCellPoint c y now tauAccept tauReplace K Nsat Nconf
      tauUpload).1.flags = c.flags ∧
    ((integrateCellPoint c y now tauAccept tauReplace K Nsat Nconf
        tauUpload).1.z_mean = c.z_mean ∨
      |(integrateCellPoint c y now tauAccept tauReplace K Nsat Nconf
          tauUpload).1.z_mean - c.prev_z_mean| ≤ tauUpload) := by
  simp only [integrateCellPoint] at hnd ⊢
  split at hnd
  case isTrue hv => simp at hnd
  case isFalse hv =>
    rw [if_neg hv]
    split at hnd
    case isTrue hag =>
      rw [if_pos hag]
      split at hnd
      case isTrue hup => simp at hnd
      case isFalse hup =>
        rw [if_neg hup]
        exact ⟨by simpa using hv, rfl, rfl,
          Or.inr (by simpa using not_lt.mp hup)⟩
    case isFalse hag =>
      rw [if_neg hag]
      split at hnd
      case isTrue hrep =>
        rw [if_pos hrep]
        split at hnd
        case isTrue hwin =>
          rw [if_pos hwin]
          split at hnd
          case isTrue h255 =>
            rw [if_pos h255]
            split at hnd
            case isTrue hrm => simp at hnd
            case isFalse hrm =>
              rw [if_neg hrm]
              exact ⟨by simpa using hv, rfl, rfl, Or.inl rfl⟩
          case isFalse h255 =>
            rw [if_neg h255]
            split at hnd
            case isTrue hrm => simp at hnd
            case isFalse hrm =>
              rw [if_neg hrm]
              exact ⟨by simpa using hv, rfl, rfl, Or.inl rfl⟩
        case isFalse hwin =>
          rw [if_neg hwin]
          split at hnd
          case isTrue hrm => simp at hnd
          case isFalse hrm =>
            rw [if_neg hrm]
            exact ⟨by simpa using hv, rfl, rfl, Or.inl rfl⟩
      case isFalse hrep =>
        rw [if_neg hrep]
        split at hnd
        case isTrue hw =>
          rw [if_pos hw]
          split at hnd
          case isTrue hup => simp at hnd
          case isFalse hup =>
            rw [if_neg hup]
            exact ⟨by simpa using hv, rfl, rfl,
              Or.inr (by simpa using not_lt.mp hup)⟩
        case isFalse hw =>
          rw [if_neg hw]
          split at hnd
          case isTrue hup => simp at hnd
          case isFalse hup =>
            rw [if_neg hup]
            exact ⟨by simpa using hv, rfl, rfl,
              Or.inr (by simpa using not_lt.mp hup)⟩

/-- Witness for C3 (amended): an agreeing sample on a valid cell that moves
the mean only slightly, leaving the dirty signal off. -/
theorem C3_amended_witness :
    cellC2.valid = true ∧
    (integrateCellPoint cellC2 0.01 0 0.25 0.7 3 20 5 0.06).1.prev_z_mean =
      cellC2.prev_z_mean ∧
    (integrateCellPoint cellC2 0.01 0 0.25 0.7 3 20 5 0.06).1.flags =
      cellC2.flags ∧
    ((integrateCellPoint cellC2 0.01 0 0.25 0.7 3 20 5 0.06).1.z_mean =
        cellC2.z_mean ∨
      |(integrateCellPoint cellC2 0.01 0 0.25 0.7 3 20 5
          0.06).1.z_mean - cellC2.prev_z_mean| ≤ 0.06) :=
  C3_amended_dirty_flag 0.25 0.7 3 20 5 0.06 cellC2 0.01 0
    (by norm_num [integrateCellPoint, cellC2, abs_of_pos, abs_of_nonneg])

/-- C4 — Leaf-lookup depth: with the defaults (`tile_size = 32`,
`base_cell_resolution = 0.25`) the derived maximum depth is `D = 7`, i.e.
the source intends a 2^7 = 128-cell edge; but `locateLeaf` returns as soon
as it reaches a leaf at loop index `maxDepth - 1`, so on a fresh default
tile the walk terminates at depth 6 — one level short of `D` — and the path
to the returned leaf has length 6 (a 64×64 grid at maximum refinement, 0.5 m
cells, contradicting the claim and the source's own comments). -/
theorem C4_locateLeaf_depth_off_by_one :
    ElevationMap.init.tileSize = 32 ∧
    ElevationMap.init.baseCellRes = 0.25 ∧
    ElevationMap.init.maxDepth = 7 ∧
    ((Tile.create 0 0 32 7).locateLeaf 0.1 0.1).2.2 = 6 ∧
    ((Tile.create 0 0 32 7).locateLeaf 0.1 0.1).2.1.length = 6 := by
  refine ⟨rfl, rfl, ?_, ?_, ?_⟩
  · norm_num [ElevationMap.init, ElevationMap.setParameters, powerLoop]
  · norm_num [Tile.locateLeaf, Tile.create, locateGo, childIndexFor,
      QuadNode.isLeafB, QuadNode.split, QuadNode.child, QuadNode.setChild,
      ElevCell.initCell]
  · norm_num [Tile.locateLeaf, Tile.create, locateGo, childIndexFor,
      QuadNode.isLeafB, QuadNode.split, QuadNode.child, QuadNode.setChild,
      ElevCell.initCell]

lemma mC5_step1 : mSmallG.integrateOne pC5a 0 =
    { mSmallG with tiles := [(kTile00, tileC5a)] } := by
  norm_num [mSmallG, pC5a, cellC5a, cellC3a, kTile00, tileC5a,
    ElevationMap.integrateOne, ElevationMap.getOrCreateTile, findTile,
    insertTileSorted, TileKey.ltB, updateTile, Tile.create,
    Tile.integratePoint, Tile.locateLeaf, locateGo, childIndexFor,
    QuadNode.isLeafB, QuadNode.split, QuadNode.child, QuadNode.setChild,
    QuadNode.setCell, QuadNode.cell, cellAtPath, setCellAtPath,
    integrateCellPoint, ElevCell.initCell, ELEV_VALID, ELEV_DIRTY,
    ELEV_CHANGED]
  decide

lemma mC5_eq : mC5 =
    { mSmallG with tiles := [(kTile00, tileC5a), (kTile10, tileC5b)] } := by
  show mSmall.integrateScan [pC5a, pC5b] 0 = _
  rw [mSmall_eq]
  show (mSmallG.integrateOne pC5a 0).integrateOne pC5b 0 = _
  rw [mC5_step1]
  norm_num [mSmallG, pC5b, cellC5a, cellC5b, cellC3a, kTile00, kTile10,
    tileC5a, tileC5b, ElevationMap.integrateOne, ElevationMap.getOrCreateTile,
    findTile, insertTileSorted, TileKey.ltB, updateTile, Tile.create,
    Tile.integratePoint, Tile.locateLeaf, locateGo, childIndexFor,
    QuadNode.isLeafB, QuadNode.split, QuadNode.child, QuadNode.setChild,
    QuadNode.setCell, QuadNode.cell, cellAtPath, setCellAtPath,
    integrateCellPoint, ElevCell.initCell, ELEV_VALID, ELEV_DIRTY,
    ELEV_CHANGED]
  decide

/-- C5 — Non-finite point handling: `integrateScan` applies `integratePoint`
to every point of the scan unconditionally; there is no finiteness test
anywhere on the path (see `ElevationMap.integrateOne`).  Concretely, both
points of a two-point scan are integrated: each lands in its tile and
initializes its cell.  (A non-finite coordinate, unrepresentable in this
exact-rational embedding, would reach `floor(x / tileSize)` and
`integratePoint` just the same — nothing rejects it, contradicting the
spec's required reject-before-integration.) -/
theorem C5_every_point_integrated :
    (mC5.cellAt 0.1 0.1).map ElevCell.z_mean = some 5 ∧
    (mC5.cellAt 1.5 0.2).map ElevCell.z_mean = some 3 ∧
    mC5.getStats = { numTiles := 2, numLeaves := 2 } := by
  refine ⟨?_, ?_, ?_⟩
  · rw [mC5_eq]
    norm_num [ElevationMap.cellAt, mSmallG, findTile, kTile00, kTile10,
      tileC5a, tileC5b, Tile.locateLeaf, locateGo, cellAtPath, QuadNode.cell,
      cellC5a, cellC3a]
  · rw [mC5_eq]
    norm_num [ElevationMap.cellAt, mSmallG, findTile, kTile00, kTile10,
      tileC5a, tileC5b, Tile.locateLeaf, locateGo, cellAtPath, QuadNode.cell,
      cellC5b, cellC3a]
  · rw [mC5_eq]
    norm_num [ElevationMap.getStats, QuadNode.countLeaves, mSmallG, kTile00,
      kTile10, tileC5a, tileC5b]

lemma consumeBudgetGo_spec (gridN : ℕ) (ts : ℚ) :
    ∀ (l : List (TileKey × Tile)) (b : ℕ),
    (l.map Prod.fst).Nodup →
    ((consumeBudgetGo gridN ts b l).1.length ≤ b) ∧
    (∀ u ∈ (consumeBudgetGo gridN ts b l).1, ∃ t : Tile, (u.key, t) ∈ l ∧
      t.dirty = true ∧ u.heights = t.buildHeightGrid gridN ∧
      u.tileSize = ts) ∧
    (∀ kv : TileKey × Tile, kv ∈ l →
      (kv.1 ∈ (consumeBudgetGo gridN ts b l).1.map TileUpdate.key →
        (kv.1, { kv.2 with dirty := false }) ∈
          (consumeBudgetGo gridN ts b l).2) ∧
      (kv.1 ∉ (consumeBudgetGo gridN ts b l).1.map TileUpdate.key →
        kv ∈ (consumeBudgetGo gridN ts b l).2)) := by
  intro l
  induction l with
  | nil =>
    intro b _
    refine ⟨by simp [consumeBudgetGo], by simp [consumeBudgetGo], ?_⟩
    intro kv hkv
    simp at hkv
  | cons kt rest ih =>
    intro b hnd
    obtain ⟨k, t⟩ := kt
    have hndr : (rest.map Prod.fst).Nodup := by
      rw [List.map_cons, List.nodup_cons] at hnd
      exact hnd.2
    have hknotin : k ∉ rest.map Prod.fst := by
      rw [List.map_cons, List.nodup_cons] at hnd
      exact hnd.1
    cases b with
    | zero =>
      refine ⟨by simp [consumeBudgetGo], by simp [consumeBudgetGo], ?_⟩
      intro kv hkv
      constructor
      · intro hmem
        simp [consumeBudgetGo] at hmem
      · intro _
        simpa [consumeBudgetGo] using hkv
    | succ b' =>
      by_cases hd : t.dirty = true
      · have hres : consumeBudgetGo gridN ts (b' + 1) ((k, t) :: rest) =
            ({ key := k, heights := t.buildHeightGrid gridN, tileSize := ts }
                :: (consumeBudgetGo gridN ts b' rest).1,
             (k, { t with dirty := false })
                :: (consumeBudgetGo gridN ts b' rest).2) := by
          simp [consumeBudgetGo, hd]
        obtain ⟨ih1, ih2, ih3⟩ := ih b' hndr
        refine ⟨?_, ?_, ?_⟩
        · rw [hres]
          simpa using ih1
        · intro u hu
          rw [hres] at hu
          rcases List.mem_cons.mp hu with hu | hu
          · subst hu
            exact ⟨t, by simp, hd, rfl, rfl⟩
          · obtain ⟨t', ht'⟩ := ih2 u hu
            exact ⟨t', List.mem_cons_of_mem _ ht'.1, ht'.2⟩
        · intro kv hkv
          rcases List.mem_cons.mp hkv with hkv | hkv
          · subst hkv
            constructor
            · intro _
              rw [hres]
              simp
            · intro hno
              exfalso
              apply hno
              rw [hres]
              simp
          · have hkne : kv.1 ≠ k := by
              intro he
              apply hknotin
              rw [← he]
              exact List.mem_map_of_mem Prod.fst hkv
            obtain ⟨c1, c2⟩ := ih3 kv hkv
            constructor
            · intro hmem
              rw [hres] at hmem ⊢
              simp only [List.map_cons, List.mem_cons] at hmem
              rcases hmem with hmem | hmem
              · exact absurd hmem hkne
              · exact List.mem_cons_of_mem _ (c1 hmem)
            · intro hno
              rw [hres] at hno ⊢
              simp only [List.map_cons, List.mem_cons, not_or] at hno
              exact List.mem_cons_of_mem _ (c2 hno.2)
      · have hd' : t.dirty = false := by
          cases hdt : t.dirty
          · rfl
          · exact absurd hdt hd
        have hres : consumeBudgetGo gridN ts (b' + 1) ((k, t) :: rest) =
            ((consumeBudgetGo gridN ts (b' + 1) rest).1,
             (k, t) :: (consumeBudgetGo gridN ts (b' + 1) rest).2) := by
          simp [consumeBudgetGo, hd']
        obtain ⟨ih1, ih2, ih3⟩ := ih (b' + 1) hndr
        have hknotres : k ∉ (consumeBudgetGo gridN ts (b' + 1) rest).1.map
            TileUpdate.key := by
          intro hmem
          obtain ⟨u, hu, huk⟩ := List.mem_map.mp hmem
          obtain ⟨t', ht'1, _⟩ := ih2 u hu
          apply hknotin
          rw [← huk]
          exact List.mem_map_of_mem Prod.fst ht'1
        refine ⟨?_, ?_, ?_⟩
        · rw [hres]
          exact ih1
        · intro u hu
          rw [hres] at hu
          obtain ⟨t', ht'⟩ := ih2 u hu
          exact ⟨t', List.mem_cons_of_mem _ ht'.1, ht'.2⟩
        · intro kv hkv
          rcases List.mem_cons.mp hkv with hkv | hkv
          · subst hkv
            constructor
            · intro hmem
              rw [hres] at hmem
              exact absurd hmem hknotres
            · intro _
              rw [hres]
              simp
          · obtain ⟨c1, c2⟩ := ih3 kv hkv
            constructor
            · intro hmem
              rw [hres] at hmem ⊢
              exact List.mem_cons_of_mem _ (c1 hmem)
            · intro hno
              rw [hres] at hno ⊢
              exact List.mem_cons_of_mem _ (c2 hno)

/-- C6 — Budgeted export: for every byte budget and every map whose tile
keys are distinct (as in the source's `std::map`),
`consumeDirtyTilesBudgeted(maxBytes)` returns at most
`max(1, maxBytes / (N² · 4))` updates (N = `gridNVertices`); every returned
update was built (`buildHeightGrid`) from a tile whose dirty flag was set;
returned tiles reappear with their dirty flag cleared, and every tile not
returned — dirty ones included — is left exactly as it was, so unreturned
dirty tiles remain dirty for a later call. -/
theorem C6_budgeted_export (m : ElevationMap) (maxBytes : ℕ)
    (hnd : (m.tiles.map Prod.fst).Nodup) :
    ((m.consumeDirtyTilesBudgeted maxBytes).1.length ≤
      max 1 (maxBytes / (m.gridNVertices * m.gridNVertices * 4))) ∧
    (∀ u ∈ (m.consumeDirtyTilesBudgeted maxBytes).1, ∃ t : Tile,
      (u.key, t) ∈ m.tiles ∧ t.dirty = true ∧
      u.heights = t.buildHeightGrid m.gridNVertices ∧
      u.tileSize = m.tileSize) ∧
    (∀ kv : TileKey × Tile, kv ∈ m.tiles →
      (kv.1 ∈ (m.consumeDirtyTilesBudgeted maxBytes).1.map TileUpdate.key →
        (kv.1, { kv.2 with dirty := false }) ∈
          (m.consumeDirtyTilesBudgeted maxBytes).2.tiles) ∧
      (kv.1 ∉ (m.consumeDirtyTilesBudgeted maxBytes).1.map TileUpdate.key →
        kv ∈ (m.consumeDirtyTilesBudgeted maxBytes).2.tiles)) := by
  by_cases hz : m.gridNVertices * m.gridNVertices * 4 = 0
  · have hres : m.consumeDirtyTilesBudgeted maxBytes = ([], m) := by
      simp [ElevationMap.consumeDirtyTilesBudgeted, hz]
    rw [hres]
    refine ⟨by simp, by simp, ?_⟩
    intro kv hkv
    exact ⟨fun h => by simp at h, fun _ => hkv⟩
  · have hres : m.consumeDirtyTilesBudgeted maxBytes =
        ((consumeBudgetGo m.gridNVertices m.tileSize
            (max (maxBytes / (m.gridNVertices * m.gridNVertices * 4)) 1)
            m.tiles).1,
         { m with tiles := (consumeBudgetGo m.gridNVertices m.tileSize
            (max (maxBytes / (m.gridNVertices * m.gridNVertices * 4)) 1)
            m.tiles).2 }) := by
      simp [ElevationMap.consumeDirtyTilesBudgeted, hz]
    obtain ⟨h1, h2, h3⟩ := consumeBudgetGo_spec m.gridNVertices m.tileSize
      m.tiles (max (maxBytes / (m.gridNVertices * m.gridNVertices * 4)) 1) hnd
    rw [hres]
    refine ⟨?_, h2, ?_⟩
    · calc _ ≤ _ := h1
        _ = _ := Nat.max_comm _ _
    · intro kv hkv
      exact h3 kv hkv

/-- Witness for C6 on a concrete two-dirty-tile map with a 16-byte budget
(one tile's worth). -/
theorem C6_witness :
    ((mC6.consumeDirtyTilesBudgeted 16).1.length ≤
      max 1 (16 / (mC6.gridNVertices * mC6.gridNVertices * 4))) ∧
    (∀ u ∈ (mC6.consumeDirtyTilesBudgeted 16).1, ∃ t : Tile,
      (u.key, t) ∈ mC6.tiles ∧ t.dirty = true ∧
      u.heights = t.buildHeightGrid mC6.gridNVertices ∧
      u.tileSize = mC6.tileSize) ∧
    (∀ kv : TileKey × Tile, kv ∈ mC6.tiles →
      (kv.1 ∈ (mC6.consumeDirtyTilesBudgeted 16).1.map TileUpdate.key →
        (kv.1, { kv.2 with dirty := false }) ∈
          (mC6.consumeDirtyTilesBudgeted 16).2.tiles) ∧
      (kv.1 ∉ (mC6.consumeDirtyTilesBudgeted 16).1.map TileUpdate.key →
        kv ∈ (mC6.consumeDirtyTilesBudgeted 16).2.tiles)) :=
  C6_budgeted_export mC6 16 (by decide)
